import Mathlib

/-
Verification of the S-Buffer implementation in `s_buffer.h` (emre-aki/s-buffer).

The C code is shallowly embedded over exact rational arithmetic: C `float`
values become `ℚ`, the `malloc`-managed tree of `span_t` nodes becomes an
explicit heap (an association list from addresses to node records), pointer
reads and writes become `Option`-valued heap operations (a `none` result marks
a dereference of a dangling pointer, which in C would be undefined behaviour),
and the two unbounded `while` loops of `SB_Push` are modeled with fuel; a
`none` result marks fuel exhaustion, and all runs examined here terminate far
inside the provided fuel.  The `(int)` casts used by the fixed-precision depth
comparisons are modeled as truncation toward zero.
-/

namespace SB

/-- The `SB_MAX` macro, in its arithmetic encoding
`((a > b) * a) + ((b >= a) * b)`. -/
def sbMax (a b : ℚ) : ℚ := (if a > b then a else 0) + (if b ≥ a then b else 0)

/-- The `SB_MAX` macro on ints (used for heights). -/
def sbMaxI (a b : Int) : Int := (if a > b then a else 0) + (if b ≥ a then b else 0)

/-- The `SB_LERP(a, b, p, t)` macro. -/
def sbLerp (a b p t : ℚ) : ℚ := (b - a) * p / t + a

/-- A C `(int)` cast of a float value: truncation toward zero. -/
def ctruncZ (q : ℚ) : Int := if 0 ≤ q then ⌊q⌋ else -⌊-q⌋

/-- The `span2_t` view-plane point type of the geometry kernel. -/
structure Span2 where
  x : ℚ
  z : ℚ
deriving DecidableEq

/-- The `SB_CROSS_2D(a, b, c, d)` macro. -/
def cross2D (a b c d : ℚ) : ℚ := a * d - b * c

/-- The `SB_CROSS_SPAN2(u, v)` macro. -/
def crossSpan2 (u v : Span2) : ℚ := cross2D u.x u.z v.x v.z

/-- Return code `SB_INTERSECTING`. -/
def SB_INTERSECTING : Nat := 0

/-- Return code `SB_PARALLEL`. -/
def SB_PARALLEL : Nat := 1

/-- Return code `SB_DEGENERATE`. -/
def SB_DEGENERATE : Nat := 2

/-- Return code `SB_NOT_INTERSECTING`. -/
def SB_NOT_INTERSECTING : Nat := 3

/-- The `1e-6` epsilon used by `SB_Intersect2D`. -/
def qeps : ℚ := 1 / 1000000

/-- The function `SB_Intersect2D`: 2-D line-segment intersection.  The second
component is the intersection point; it is only meaningful when the result
code is `SB_INTERSECTING` (the C code leaves `out` unwritten otherwise;
the placeholder `⟨0, 0⟩` stands for that unwritten value). -/
def SB_Intersect2D (a b c d : Span2) : Nat × Span2 :=
  let u : Span2 := ⟨b.x - a.x, b.z - a.z⟩
  let v : Span2 := ⟨d.x - c.x, d.z - c.z⟩
  let ca : Span2 := ⟨c.x - a.x, c.z - a.z⟩
  let numt := crossSpan2 ca v
  let numq := crossSpan2 ca u
  let denom := crossSpan2 u v
  let t := numt / denom
  let q := numq / denom
  if numt ≠ 0 ∧ denom = 0 then (SB_PARALLEL, ⟨0, 0⟩)
  else if numt = 0 ∧ denom = 0 then (SB_DEGENERATE, ⟨0, 0⟩)
  else if t ≤ qeps ∨ t ≥ 1 - qeps ∨ q ≤ qeps ∨ q ≥ 1 - qeps then
    (SB_NOT_INTERSECTING, ⟨0, 0⟩)
  else (SB_INTERSECTING, ⟨t * u.x + a.x, t * u.z + a.z⟩)

/-- Result record of `SB_SpanIntersect`: the return code, the screen-space
abscissa of the intersection (meaningful only when `res = SB_INTERSECTING`),
and the leftness sign. -/
structure SIRes where
  res : Nat
  ix : ℚ
  leftness : ℚ
deriving DecidableEq

/-- The function `SB_SpanIntersect`. -/
def SB_SpanIntersect (ux0 uw0 ux1 uw1 vx0 vw0 vx1 vw1 bufferWidth zNear : ℚ) : SIRes :=
  let half := bufferWidth * (1 / 2)
  let izn := 1 / zNear
  let uz0 := 1 / uw0
  let uz1 := 1 / uw1
  let vz0 := 1 / vw0
  let vz1 := 1 / vw1
  let uwx0 := (ux0 - half) * uz0 * izn
  let uwx1 := (ux1 - half) * uz1 * izn
  let vwx0 := (vx0 - half) * vz0 * izn
  let vwx1 := (vx1 - half) * vz1 * izn
  let r := SB_Intersect2D ⟨uwx0, uz0⟩ ⟨uwx1, uz1⟩ ⟨vwx0, vz0⟩ ⟨vwx1, vz1⟩
  if r.1 ≠ 0 then
    let l := if r.1 = SB_NOT_INTERSECTING then
        crossSpan2 ⟨uwx1 - vwx0, uz1 - vz0⟩ ⟨vwx1 - vwx0, vz1 - vz0⟩
      else 0
    ⟨r.1, 0, l⟩
  else
    ⟨r.1, r.2.x * zNear / r.2.z + half,
      crossSpan2 ⟨uwx0 - r.2.x, uz0 - r.2.z⟩ ⟨vwx0 - r.2.x, vz0 - r.2.z⟩⟩

/-- A span node (`span_t`); the child links `prev` and `next` are heap
addresses. -/
structure SpanRec where
  prev : Option Nat
  next : Option Nat
  x0 : ℚ
  x1 : ℚ
  w0 : ℚ
  w1 : ℚ
  height : Int
  id : Nat
deriving DecidableEq

/-- The heap: an association list from addresses to span records. -/
abbrev Heap := List (Nat × SpanRec)

/-- Dereference a span pointer. -/
def hGet (h : Heap) (a : Nat) : Option SpanRec := h.lookup a

/-- Store through a span pointer (fails on a dangling address). -/
def hSet (h : Heap) (a : Nat) (r : SpanRec) : Option Heap :=
  if (h.lookup a).isSome then some (h.map fun p => if p.1 = a then (a, r) else p)
  else none

/-- The allocator `SB_Span`: create a fresh span node at the next free
address `na`; returns the extended heap and the next free address. -/
def sbSpan (h : Heap) (na : Nat) (x0 x1 w0 w1 : ℚ) (id : Nat) : Heap × Nat :=
  ((na, ⟨none, none, x0, x1, w0, w1, 0, id⟩) :: h, na + 1)

/-- The per-child contribution `child ? child->height + 1 : 0` appearing in
`SB_BF` and `SB_HEIGHT`. -/
def hContrib (h : Heap) (c : Option Nat) : Option Int :=
  match c with
  | none => some 0
  | some a => (hGet h a).map fun r => r.height + 1

/-- The `SB_BF(n)` macro. -/
def sbBF (h : Heap) (r : SpanRec) : Option Int := do
  let n ← hContrib h r.next
  let p ← hContrib h r.prev
  pure (n - p)

/-- The `SB_HEIGHT(n)` macro. -/
def sbHeight (h : Heap) (r : SpanRec) : Option Int := do
  let p ← hContrib h r.prev
  let n ← hContrib h r.next
  pure (sbMaxI p n)

/-- The assignment `a->prev = p`. -/
def setPrevAt (h : Heap) (a : Nat) (p : Option Nat) : Option Heap := do
  let r ← hGet h a
  hSet h a { r with prev := p }

/-- The assignment `a->next = n`. -/
def setNextAt (h : Heap) (a : Nat) (n : Option Nat) : Option Heap := do
  let r ← hGet h a
  hSet h a { r with next := n }

/-- The assignment `a->height = SB_HEIGHT(a)`. -/
def setHeightAt (h : Heap) (a : Nat) : Option Heap := do
  let r ← hGet h a
  let hh ← sbHeight h r
  hSet h a { r with height := hh }

/-- The rotation shape shared by `SB_BisectParent` and `SB_Push` restoring
balance in the `prev` subtree of `oldP`:
`new_parent = old_parent->prev; child = new_parent->prev;` then a double
rotation through `child->next` when `SB_BF(new_parent) > 0`, then
`old_parent->prev = new_parent->next; new_parent->next = old_parent`.
Returns `(new_parent, child, heap)`. -/
def rotatePrevSide (h : Heap) (oldP : Nat) : Option (Nat × Option Nat × Heap) := do
  let orec ← hGet h oldP
  let npA0 ← orec.prev
  let nrec0 ← hGet h npA0
  let nbf ← sbBF h nrec0
  let (childA, npA, h1) ←
    if nbf > 0 then do
      let np2 ← nrec0.next
      let n2rec ← hGet h np2
      let hx ← hSet h npA0 { nrec0 with next := n2rec.prev }
      let hy ← setPrevAt hx np2 (some npA0)
      pure ((some npA0 : Option Nat), np2, hy)
    else pure (nrec0.prev, npA0, h)
  let nrec1 ← hGet h1 npA
  let h2 ← setPrevAt h1 oldP nrec1.next
  let h3 ← setNextAt h2 npA (some oldP)
  pure (npA, childA, h3)

/-- Mirror image of `rotatePrevSide` for the `next` subtree. -/
def rotateNextSide (h : Heap) (oldP : Nat) : Option (Nat × Option Nat × Heap) := do
  let orec ← hGet h oldP
  let npA0 ← orec.next
  let nrec0 ← hGet h npA0
  let nbf ← sbBF h nrec0
  let (childA, npA, h1) ←
    if nbf < 0 then do
      let np2 ← nrec0.prev
      let n2rec ← hGet h np2
      let hx ← hSet h npA0 { nrec0 with prev := n2rec.next }
      let hy ← setNextAt hx np2 (some npA0)
      pure ((some npA0 : Option Nat), np2, hy)
    else pure (nrec0.next, npA0, h)
  let nrec1 ← hGet h1 npA
  let h2 ← setNextAt h1 oldP nrec1.prev
  let h3 ← setPrevAt h2 npA (some oldP)
  pure (npA, childA, h3)

/-- Height updates `old_parent / child / new_parent` after a rotation
(the C code dereferences `child` unconditionally here, so a null `child`
is a crash). -/
def updateRotHeights (h : Heap) (oldP : Nat) (childA : Option Nat) (npA : Nat) :
    Option Heap := do
  let h1 ← setHeightAt h oldP
  let c ← childA
  let h2 ← setHeightAt h1 c
  setHeightAt h2 npA

/-- The balance fix-up on the freshly inserted left bisection fragment:
`if (SB_BF(parent_split) < -1) ... else ...` inside `SB_BisectParent`. -/
def bisectLeftFix (h : Heap) (parent ls : Nat) : Option Heap := do
  let lrec ← hGet h ls
  let bf ← sbBF h lrec
  if bf < -1 then do
    let (npA, childA, h1) ← rotatePrevSide h ls
    let h2 ← setPrevAt h1 parent (some npA)
    updateRotHeights h2 ls childA npA
  else setHeightAt h ls

/-- Left half of `SB_BisectParent`: allocate the left fragment, link it in as
`parent->prev`, rebalance locally if needed. -/
def bisectLeftPart (h : Heap) (na : Nat) (parent : Nat)
    (oldX0 oldW0 oldW1 oldSize visx0 : ℚ) (oldId : Nat) : Option (Heap × Nat) := do
  let (h2, na1) := sbSpan h na oldX0 visx0 oldW0
    (sbLerp oldW0 oldW1 (visx0 - oldX0) oldSize) oldId
  let ls := na
  let prec1 ← hGet h2 parent
  let h3 ← setPrevAt h2 ls prec1.prev
  let h4 ← setPrevAt h3 parent (some ls)
  let h5 ← bisectLeftFix h4 parent ls
  pure (h5, na1)

/-- Right half of `SB_BisectParent`: allocate the right fragment, link it in
as `parent->next`, update heights. -/
def bisectRightPart (h : Heap) (na1 : Nat) (parent : Nat)
    (oldX0 oldX1 oldW0 oldW1 oldSize visx1 : ℚ) (oldId : Nat) : Option (Heap × Nat) := do
  let (h6, na2) := sbSpan h na1 visx1 oldX1
    (sbLerp oldW0 oldW1 (visx1 - oldX0) oldSize) oldW1 oldId
  let rs := na1
  let prec3 ← hGet h6 parent
  let h7 ← setNextAt h6 rs prec3.next
  let h8 ← setNextAt h7 parent (some rs)
  let h9 ← setHeightAt h8 rs
  let h10 ← setHeightAt h9 parent
  pure (h10, na2)

/-- The function `SB_BisectParent`: overwrite `parent` with the visible
portion `[visx0, visx1)` of the incoming span, then hang the left and the
right remainders of the old parent around it. -/
def SB_BisectParent (h : Heap) (na : Nat) (parent : Nat)
    (x0 x1 w0 w1 visx0 visx1 : ℚ) (id : Nat) : Option (Heap × Nat) := do
  let prec ← hGet h parent
  let size := x1 - x0
  let oldSize := prec.x1 - prec.x0
  let h1 ← hSet h parent { prec with
    x0 := visx0, x1 := visx1,
    w0 := sbLerp w0 w1 (visx0 - x0) size,
    w1 := sbLerp w0 w1 (visx1 - x0) size,
    id := id }
  let (h5, na1) ← bisectLeftPart h1 na parent prec.x0 prec.w0 prec.w1 oldSize visx0 prec.id
  bisectRightPart h5 na1 parent prec.x0 prec.x1 prec.w0 prec.w1 oldSize visx1 prec.id

/-- Outcome of `SB_Push`: `ok` is the C return value 0; `notPushed` is the
return value 1 on the occluded / nothing-inserted paths; `maxDepth` is the
return value 1 after the "Maximum buffer depth reached!" diagnostic. -/
inductive PushRet where
  | ok
  | notPushed
  | maxDepth
deriving DecidableEq

/-- The C `int` return value corresponding to a `PushRet`. -/
def retcode : PushRet → Nat
  | .ok => 0
  | .notPushed => 1
  | .maxDepth => 1

/-- A `pscope_t` stack frame. -/
structure PScope where
  span : Nat
  left : ℚ
  right : ℚ
deriving DecidableEq

/-- Write `stack[d] = sc`; entries above the stack pointer are dead in the C
code, so the truncate-and-push representation is faithful. -/
def stackWrite (s : List PScope) (d : Nat) (sc : PScope) : List PScope :=
  s.take d ++ [sc]

/-- The `sbuffer_t` record plus the allocator state. -/
structure SBuffer where
  heap : Heap
  nextAddr : Nat
  root : Option Nat
  size : Int
  zNear : ℚ
  maxDepth : Nat
deriving DecidableEq

/-- The function `SB_Init`. -/
def SB_Init (size : Int) (zNear : ℚ) (maxDepth : Nat) : SBuffer :=
  ⟨[], 0, none, size, zNear, maxDepth⟩

/-- The local state of one `SB_Push` call: the buffer fields plus the local
variables of the insertion loops. -/
structure PState where
  heap : Heap
  nextAddr : Nat
  root : Option Nat
  size : Int
  zNear : ℚ
  maxDepth : Nat
  left : ℚ
  right : ℚ
  x : ℚ
  remaining : ℚ
  pushed : Bool
  stack : List PScope
  depth : Nat
  curr : Option Nat
  parent : Option Nat
deriving DecidableEq

/-- The fixed-precision depth comparison from `SB_Push`:
`parent_comp < cand_comp || parent_comp == cand_comp && leftness > 0`, where
both `_comp` values are `(int)(w * 1000000)`.  It is used verbatim at both
comparison sites (case families L and R). -/
def sbOccludeWins (pside cside leftness : ℚ) : Bool :=
  decide (ctruncZ (pside * 1000000) < ctruncZ (cside * 1000000)) ||
    (decide (ctruncZ (pside * 1000000) = ctruncZ (cside * 1000000)) &&
      decide (leftness > 0))

/-- Case family L of `SB_Push` (`x < parent->x0`, lines 404-479); the search
always proceeds into `parent->prev` afterwards. -/
def descendCaseL (x0 x1 w0 w1 : ℚ) (id : Nat) (st : PState) (pa : Nat)
    (prec : SpanRec) (psize : ℚ) (si : SIRes) : Option PState :=
  if x1 > prec.x0 then
    if si.res = 0 then
      if si.leftness > 0 then
        if x1 < prec.x1 then do
          let (h', na') ← SB_BisectParent st.heap st.nextAddr pa x0 x1 w0 w1 si.ix x1 id
          pure { st with heap := h', nextAddr := na', pushed := true }
        else do
          let h' ← hSet st.heap pa { prec with
            w1 := sbLerp prec.w0 prec.w1 (si.ix - prec.x0) psize, x1 := si.ix }
          pure { st with heap := h' }
      else do
        let h' ← hSet st.heap pa { prec with
          w0 := sbLerp prec.w0 prec.w1 (si.ix - prec.x0) psize, x0 := si.ix }
        pure { st with heap := h' }
    else
      let wAtPx0 := sbLerp w0 w1 (prec.x0 - x0) (x1 - x0)
      if sbOccludeWins prec.w0 wAtPx0 si.leftness then
        if x1 < prec.x1 then do
          let h' ← hSet st.heap pa { prec with
            w0 := sbLerp prec.w0 prec.w1 (x1 - prec.x0) psize, x0 := x1 }
          pure { st with heap := h' }
        else do
          let h' ← hSet st.heap pa { prec with
            w0 := wAtPx0, w1 := sbLerp w0 w1 (prec.x1 - x0) (x1 - x0), id := id }
          pure { st with heap := h', pushed := true }
      else pure st
  else pure st

/-- Case family R of `SB_Push` (`x ≥ parent->x0`, lines 480-603).  The boolean
is `true` when the search must continue leftward (the `continue` branches
CASE-R4 and CASE-R7), `false` for the normal rightward continuation. -/
def descendCaseR (x0 x1 w0 w1 : ℚ) (id : Nat) (st : PState) (pa : Nat)
    (prec : SpanRec) (psize w : ℚ) (si : SIRes) : Option (PState × Bool) :=
  if st.x < prec.x1 then
    if si.res = 0 then
      if si.leftness > 0 then
        if x1 < prec.x1 then do
          let (h', na') ← SB_BisectParent st.heap st.nextAddr pa x0 x1 w0 w1 si.ix x1 id
          pure ({ st with heap := h', nextAddr := na', pushed := true }, false)
        else do
          let h' ← hSet st.heap pa { prec with
            w1 := sbLerp prec.w0 prec.w1 (si.ix - prec.x0) psize, x1 := si.ix }
          pure ({ st with heap := h' }, false)
      else
        if st.x > prec.x0 then do
          let (h', na') ← SB_BisectParent st.heap st.nextAddr pa x0 x1 w0 w1 st.x si.ix id
          pure ({ st with heap := h', nextAddr := na', pushed := true }, false)
        else do
          let h' ← hSet st.heap pa { prec with
            w0 := sbLerp prec.w0 prec.w1 (si.ix - prec.x0) psize, x0 := si.ix }
          pure ({ st with heap := h' }, true)
    else
      let pwAtX := sbLerp prec.w0 prec.w1 (st.x - prec.x0) psize
      if sbOccludeWins pwAtX w si.leftness then
        if st.x > prec.x0 then
          if x1 < prec.x1 then do
            let (h', na') ← SB_BisectParent st.heap st.nextAddr pa x0 x1 w0 w1 st.x x1 id
            pure ({ st with heap := h', nextAddr := na', pushed := true }, false)
          else do
            let h' ← hSet st.heap pa { prec with
              w1 := sbLerp prec.w0 prec.w1 (st.x - prec.x0) psize, x1 := st.x }
            pure ({ st with heap := h' }, false)
        else
          if x1 < prec.x1 then do
            let h' ← hSet st.heap pa { prec with
              w0 := sbLerp prec.w0 prec.w1 (x1 - prec.x0) psize, x0 := x1 }
            pure ({ st with heap := h' }, true)
          else do
            let h' ← hSet st.heap pa { prec with
              w0 := w, w1 := sbLerp w0 w1 (prec.x1 - x0) (x1 - x0), id := id }
            pure ({ st with heap := h', pushed := true }, false)
      else pure (st, false)
  else pure (st, false)

/-- One iteration of the inner `while (curr)` loop body (after the frame has
been pushed); returns the updated state and the `goLeft` direction. -/
def descendStep (x0 x1 w0 w1 : ℚ) (id : Nat) (st : PState) (pa : Nat) :
    Option (PState × Bool) := do
  let prec ← hGet st.heap pa
  let psize := prec.x1 - prec.x0
  let w := sbLerp w0 w1 (st.x - x0) (x1 - x0)
  let si := SB_SpanIntersect st.x w x1 w1 prec.x0 prec.w0 prec.x1 prec.w1
    (st.size : ℚ) st.zNear
  if st.x < prec.x0 then do
    let st1 ← descendCaseL x0 x1 w0 w1 id st pa prec psize si
    pure (st1, true)
  else descendCaseR x0 x1 w0 w1 id st pa prec psize w si

/-- The inner `while (curr)` search loop of `SB_Push`.  `Sum.inl` is the
normal exit (`curr` became null), `Sum.inr` the `depth == max_depth` early
return.  The loop pushes `depth` by one every iteration and aborts at
`max_depth`, so fuel `max_depth + 1` always suffices. -/
def descend (x0 x1 w0 w1 : ℚ) (id : Nat) : Nat → PState → Option (PState ⊕ PState)
  | 0, st =>
    match st.curr with
    | none => some (Sum.inl st)
    | some _ => if st.depth = st.maxDepth then some (Sum.inr st) else none
  | fuel + 1, st =>
    match st.curr with
    | none => some (Sum.inl st)
    | some pa =>
      if st.depth = st.maxDepth then some (Sum.inr st)
      else do
          let st0 := { st with
            parent := some pa,
            stack := stackWrite st.stack st.depth ⟨pa, st.left, st.right⟩,
            depth := st.depth + 1 }
          let (st1, goLeft) ← descendStep x0 x1 w0 w1 id st0 pa
          let prec1 ← hGet st1.heap pa
          if goLeft then
            descend x0 x1 w0 w1 id fuel { st1 with right := prec1.x0, curr := prec1.prev }
          else
            descend x0 x1 w0 w1 id fuel { st1 with left := prec1.x1, curr := prec1.next }

/-- The leaf-attach step of `SB_Push` (lines 607-623). -/
def attachPhase (x0 x1 w0 w1 : ℚ) (id : Nat) (st : PState)
    (clippedSize clipleft : ℚ) : Option PState :=
  if clippedSize > 0 then do
    let newX0 := st.x + clipleft
    let newX1 := newX0 + clippedSize
    let newW0 := sbLerp w0 w1 (newX0 - x0) (x1 - x0)
    let newW1 := sbLerp w0 w1 (newX1 - x0) (x1 - x0)
    let (h1, na1) := sbSpan st.heap st.nextAddr newX0 newX1 newW0 newW1 id
    let na := st.nextAddr
    let pa ← st.parent
    let prec ← hGet h1 pa
    let h2 ←
      if st.x < prec.x0 then hSet h1 pa { prec with prev := some na }
      else hSet h1 pa { prec with next := some na }
    pure { st with heap := h2, nextAddr := na1, curr := some na, pushed := true }
  else pure st

/-- The reverse walk over the push-stack (lines 640-677): finds the insertion
and the imbalance bookmarks and updates heights of balanced ancestors. -/
def backtrackGo (stack : List PScope) (depth : Nat) (curr : Option Nat) :
    Nat → Heap → Int → Int → Int → ℚ → Option (Heap × Int × Int)
  | 0, h, ins, imb, _, _ => some (h, ins, imb)
  | n + 1, h, ins, imb, sd, tmpx =>
    if ¬(ins < 0 ∨ imb < 0) then some (h, ins, imb)
    else do
      let sc ← stack.get? sd.toNat
      let prec ← hGet h sc.span
      let ins1 := if ins < 0 ∧ tmpx < prec.x0 then sd else ins
      let (h1, imb1) ←
        if imb < 0 then do
          let bf ← sbBF h prec
          if bf < -1 ∨ bf > 1 then pure (h, sd)
          else
            if curr.isSome then do
              let h' ← hSet h sc.span
                { prec with height := sbMaxI prec.height ((depth : Int) - sd) }
              pure (h', imb)
            else pure (h, imb)
        else pure (h, imb)
      backtrackGo stack depth curr n h1 ins1 imb1 (sd - 1) prec.x0

/-- The stack re-construction loop after a rebalance (lines 796-815); the
`break` on reaching `curr` does not advance the frame index. -/
def repairGo (h : Heap) (curr : Nat) (x : ℚ) :
    Nat → Nat → Option Nat → List PScope → ℚ → ℚ →
    Option (Nat × List PScope × ℚ × ℚ)
  | 0, _, _, _, _, _ => none
  | _ + 1, i, none, stack, nl, nr => some (i, stack, nl, nr)
  | fuel + 1, i, some s, stack, nl, nr => do
    let stack1 := stackWrite stack i ⟨s, nl, nr⟩
    if s = curr then some (i, stack1, nl, nr)
    else do
      let r ← hGet h s
      if x < r.x0 then repairGo h curr x fuel (i + 1) r.prev stack1 nl r.x0
      else repairGo h curr x fuel (i + 1) r.next stack1 r.x1 nr

/-- Re-attach the rotated subtree to the imbalance's parent, or update the
root pointer (lines 756-769). -/
def reparent (h : Heap) (impa : Option Nat) (npA : Nat) (root : Option Nat) :
    Option (Heap × Option Nat) :=
  match impa with
  | some ip => do
    let iprec ← hGet h ip
    let nrec ← hGet h npA
    if nrec.x0 < iprec.x0 then do
      let h' ← hSet h ip { iprec with prev := some npA }
      pure (h', root)
    else do
      let h' ← hSet h ip { iprec with next := some npA }
      pure (h', root)
  | none => pure (h, some npA)

/-- Initial `(new_left, new_right)` of the stack repair (lines 777-794). -/
def repairInit (h : Heap) (st : PState) (imbN : Nat) (npA : Nat) : Option (ℚ × ℚ) :=
  if imbN ≠ 0 then do
    let psc ← st.stack.get? (imbN - 1)
    let prec ← hGet h psc.span
    let nrec ← hGet h npA
    if nrec.x0 < prec.x0 then pure (psc.left, prec.x0)
    else pure (prec.x1, psc.right)
  else pure ((0 : ℚ), (st.size : ℚ))

/-- The rebalancing block of `SB_Push` (lines 703-821), including the stack
repair when the rotation happened at or above the insertion bookmark. -/
def rebalance (st : PState) (imbBm insBm : Int) : Option PState := do
  let imbN := imbBm.toNat
  let impa ←
    if imbBm ≠ 0 then do
      let sc ← st.stack.get? (imbN - 1)
      pure (some sc.span)
    else pure (none : Option Nat)
  let scOld ← st.stack.get? imbN
  let oldP := scOld.span
  let orec ← hGet st.heap oldP
  let bf ← sbBF st.heap orec
  let (npA, childA, h1) ←
    if bf < 0 then rotatePrevSide st.heap oldP
    else rotateNextSide st.heap oldP
  let h4 ← updateRotHeights h1 oldP childA npA
  let (h5, root1) ← reparent h4 impa npA st.root
  if imbBm ≤ insBm then do
    let (nl0, nr0) ← repairInit h5 st imbN npA
    let cur ← st.curr
    let (i1, stack1, nl1, nr1) ← repairGo h5 cur st.x
      (st.maxDepth + st.stack.length + 2) imbN (some npA) st.stack nl0 nr0
    let stOut := { st with heap := h5, root := root1, stack := stack1, depth := i1, left := nl1, right := nr1 }
    pure stOut
  else
    pure { st with heap := h5, root := root1 }

/-- The bookmark handling after the backtrack walk (lines 680-697). -/
def insertionBlock (st : PState) (insBm : Int) (clipright : ℚ) : Option PState :=
  if insBm ≥ 0 then do
    let sc ← st.stack.get? insBm.toNat
    let crec ← hGet st.heap sc.span
    let stOut := { st with curr := some sc.span, left := sc.left, right := sc.right, x := crec.x0, remaining := clipright, depth := insBm.toNat }
    pure stOut
  else pure { st with remaining := 0 }

/-- One iteration of the outer `while (remaining > 0)` loop of `SB_Push`.
`Sum.inr` propagates the `max_depth` early return. -/
def outerStep (x0 x1 w0 w1 : ℚ) (id : Nat) (st : PState) : Option (PState ⊕ PState) := do
  let r ← descend x0 x1 w0 w1 id (st.maxDepth + 1) st
  match r with
  | Sum.inr stM => pure (Sum.inr stM)
  | Sum.inl st0 => do
    let clipleft := sbMax (st0.left - st0.x) 0
    let clipright := sbMax (st0.x + st0.remaining - st0.right) 0
    let clippedSize := st0.remaining - clipleft - clipright
    let st1 ← attachPhase x0 x1 w0 w1 id st0 clippedSize clipleft
    let (h1, insBm, imbBm) ← backtrackGo st1.stack st1.depth st1.curr st1.depth
      st1.heap (-1) (-1) ((st1.depth : Int) - 1) st1.x
    let st3 ← insertionBlock { st1 with heap := h1 } insBm clipright
    let st4 ←
      if imbBm ≥ 0 then rebalance st3 imbBm insBm
      else pure st3
    pure (Sum.inl st4)

/-- The outer `while (remaining > 0)` loop of `SB_Push`, with fuel. -/
def pushLoop (x0 x1 w0 w1 : ℚ) (id : Nat) : Nat → PState → Option (PState ⊕ PState)
  | 0, st => if st.remaining > 0 then none else some (Sum.inl st)
  | fuel + 1, st =>
    if st.remaining > 0 then do
      let r ← outerStep x0 x1 w0 w1 id st
      match r with
      | Sum.inr stM => pure (Sum.inr stM)
      | Sum.inl st1 => pushLoop x0 x1 w0 w1 id fuel st1
    else some (Sum.inl st)

/-- Fuel for the outer insertion loop; every run settled in this development
terminates within a handful of iterations. -/
def pushFuel : Nat := 64

/-- Project the buffer fields back out of a loop state. -/
def stToBuf (st : PState) : SBuffer :=
  ⟨st.heap, st.nextAddr, st.root, st.size, st.zNear, st.maxDepth⟩

/-- The empty-root fast path of `SB_Push` (lines 336-357). -/
def pushEmptyRoot (sb : SBuffer) (x0 x1 w0 w1 : ℚ) (id : Nat) : SBuffer × PushRet :=
  let size := x1 - x0
  let clipleft := sbMax (-x0) 0
  let clipright := sbMax (x1 - (sb.size : ℚ)) 0
  let clippedSize := size - clipright - clipleft
  if clippedSize > 0 then
    let newX0 := x0 + clipleft
    let newX1 := newX0 + clippedSize
    let newW0 := sbLerp w0 w1 (newX0 - x0) size
    let newW1 := sbLerp w0 w1 (newX1 - x0) size
    let (h1, na1) := sbSpan sb.heap sb.nextAddr newX0 newX1 newW0 newW1 id
    ({ sb with heap := h1, nextAddr := na1, root := some sb.nextAddr }, PushRet.ok)
  else (sb, PushRet.notPushed)

/-- The function `SB_Push`. -/
def SB_Push (sb : SBuffer) (x0 x1 w0 w1 : ℚ) (id : Nat) : Option (SBuffer × PushRet) :=
  match sb.root with
  | none => some (pushEmptyRoot sb x0 x1 w0 w1 id)
  | some rootA =>
    let st0 : PState := ⟨sb.heap, sb.nextAddr, sb.root, sb.size, sb.zNear, sb.maxDepth,
      0, (sb.size : ℚ), x0, x1 - x0, false, [], 0, some rootA, none⟩
    match pushLoop x0 x1 w0 w1 id pushFuel st0 with
    | none => none
    | some (Sum.inr stM) => some (stToBuf stM, PushRet.maxDepth)
    | some (Sum.inl stF) =>
      if stF.pushed then some (stToBuf stF, PushRet.ok)
      else some (stToBuf stF, PushRet.notPushed)

/- ------------------------------------------------------------------ -/
/- Semantic layer: the pointer structure extracted as an inductive tree. -/

/-- A pure binary tree of spans, extracted from the heap. -/
inductive TreeS where
  | leaf : TreeS
  | node (l : TreeS) (x0 x1 w0 w1 : ℚ) (height : Int) (id : Nat) (r : TreeS) : TreeS
deriving DecidableEq

/-- Extraction of the tree rooted at an address (with fuel; `none` marks a
dangling pointer or a cyclic heap). -/
def toTree (h : Heap) : Nat → Option Nat → Option TreeS
  | _, none => some TreeS.leaf
  | 0, some _ => none
  | fuel + 1, some a => do
    let r ← hGet h a
    let tl ← toTree h fuel r.prev
    let tr ← toTree h fuel r.next
    pure (TreeS.node tl r.x0 r.x1 r.w0 r.w1 r.height r.id tr)

/-- Extraction of a buffer's whole tree. -/
def bufTree (sb : SBuffer) : Option TreeS := toTree sb.heap 64 sb.root

/-- The true height of a subtree, with `h(nil) = -1`. -/
def theight : TreeS → Int
  | .leaf => -1
  | .node l _ _ _ _ _ _ r => 1 + max (theight l) (theight r)

/-- The balance invariant I4, `|h(next) − h(prev)| ≤ 1` at every span,
measured on true heights. -/
def tBalanced : TreeS → Bool
  | .leaf => true
  | .node l _ _ _ _ _ _ r =>
    decide ((theight r - theight l).natAbs ≤ 1) && tBalanced l && tBalanced r

/-- The span covering a column, found by tree search, together with its
reciprocal depth there (linear interpolation of `w`) and its id. -/
def tVisible : TreeS → ℚ → Option (ℚ × Nat)
  | .leaf, _ => none
  | .node l x0 x1 w0 w1 _ id r, c =>
    if c < x0 then tVisible l c
    else if c < x1 then some (sbLerp w0 w1 (c - x0) (x1 - x0), id)
    else tVisible r c


/- Batteries marks the `Rat` field operations `@[irreducible]`, which blocks
the `decide` tactic's evaluator; restore the default reducibility locally so
that concrete runs of the embedding can be evaluated.  (The kernel ignores
reducibility attributes, so proofs are unaffected.) -/
attribute [local semireducible] Rat.add Rat.mul Rat.sub Rat.inv

/- ------------------------------------------------------------------ -/
/- C1: the front-most-column property P3.                              -/

/-- Buffer after pushing segment A `(0, 10, 2000001/2000000, 2000001/2000000)`
onto a fresh buffer of width 10 (`z_near = 1`, `max_depth = 16`). -/
def c1buf1 : SBuffer :=
  ⟨[(0, ⟨none, none, 0, 10, 2000001/2000000, 2000001/2000000, 0, 65⟩)],
    1, some 0, 10, 1, 16⟩

/-- Buffer after additionally pushing segment B
`(0, 12, 10000001/10000000, 20000011/20000000)`: the CASE-R8 total overwrite
replaces A's depths by B's even though B is strictly farther at every column of
`[0, 10)`. -/
def c1buf2 : SBuffer :=
  ⟨[(0, ⟨none, none, 0, 10, 10000001/10000000, 40000019/40000000, 0, 66⟩)],
    1, some 0, 10, 1, 16⟩

set_option maxRecDepth 60000 in
/-- C1: the code violates P3 away from exact ties.  Two valid pushes on a
fresh width-10 buffer: segment A (id 65) covers `[0, 10)` with constant
reciprocal depth `1.0000005`; segment B (id 66) covers `[0, 12)` with
reciprocal depths `1.0000001 … 1.00000055`, strictly smaller than A's at every
column of `[0, 10)` (so B is strictly farther there; this is not an exact
tie).  The fixed-precision comparison `(int)(w * 1000000)` rounds both depths
to the same integer `1000000` and the `leftness` sign (computed from B's far
end, which pokes nearer than A beyond A's extent) then lets B win: the
resulting tree shows B at column 0 with reciprocal depth `1.0000001`, although
the covering segment A had the strictly greater reciprocal depth (that is,
the strictly smaller view-space depth `1/w`).  The span visible at column 0
therefore does not have the minimum view-space depth among the pushed
segments covering it. -/
theorem C1_frontmost_violated :
    SB_Push (SB_Init 10 1 16) 0 10 (2000001/2000000) (2000001/2000000) 65 =
      some (c1buf1, PushRet.ok) ∧
    SB_Push c1buf1 0 12 (10000001/10000000) (20000011/20000000) 66 =
      some (c1buf2, PushRet.ok) ∧
    ((bufTree c1buf2).bind fun t => tVisible t 0) = some (10000001/10000000, 66) ∧
    (10000001/10000000 : ℚ) < 2000001/2000000 ∧
    (0:ℚ) ≤ 0 ∧ (0:ℚ) < 10 ∧ (0:ℚ) < 12 ∧
    (0:ℚ) < 2000001/2000000 ∧ (0:ℚ) < 10000001/10000000 ∧
    (0:ℚ) < 20000011/20000000 := by
  refine ⟨?_, ?_, ?_, ?_, ?_, ?_, ?_, ?_, ?_, ?_⟩ <;> decide


/- ------------------------------------------------------------------ -/
/- C3: balance preservation (I4 / P5).                                 -/

/-- Buffer after push 1, `(10, 20, 1/10, 1/10, 82)`, on a fresh width-64
buffer (`z_near = 1`, `max_depth = 16`). -/
def c3buf1 : SBuffer :=
  ⟨[(0, ⟨none, none, 10, 20, 1/10, 1/10, 0, 82⟩)], 1, some 0, 64, 1, 16⟩

/-- Buffer after push 2, `(0, 5, 1/10, 1/10, 65)`. -/
def c3buf2 : SBuffer :=
  ⟨[(1, ⟨none, none, 0, 5, 1/10, 1/10, 0, 65⟩),
    (0, ⟨some 1, none, 10, 20, 1/10, 1/10, 1, 82⟩)], 2, some 0, 64, 1, 16⟩

/-- Buffer after push 3, `(30, 40, 1/10, 1/10, 67)`. -/
def c3buf3 : SBuffer :=
  ⟨[(2, ⟨none, none, 30, 40, 1/10, 1/10, 0, 67⟩),
    (1, ⟨none, none, 0, 5, 1/10, 1/10, 0, 65⟩),
    (0, ⟨some 1, some 2, 10, 20, 1/10, 1/10, 1, 82⟩)], 3, some 0, 64, 1, 16⟩

/-- Buffer after push 4, `(1, 3, 1/2, 1/2, 68)`: the nearer span bisects the
left child `[0, 5)` into `[0, 1) / [1, 3) / [3, 5)`.  No leaf is attached
afterwards, so the `else if (curr)` guard in the backtrack walk skips the
height update of the root, whose stored height stays 1 while its true height
is now 2. -/
def c3buf4 : SBuffer :=
  ⟨[(4, ⟨none, none, 3, 5, 1/10, 1/10, 0, 65⟩),
    (3, ⟨none, none, 0, 1, 1/10, 1/10, 0, 65⟩),
    (2, ⟨none, none, 30, 40, 1/10, 1/10, 0, 67⟩),
    (1, ⟨some 3, some 4, 1, 3, 1/2, 1/2, 1, 68⟩),
    (0, ⟨some 1, some 2, 10, 20, 1/10, 1/10, 1, 82⟩)], 5, some 0, 64, 1, 16⟩

/-- Buffer after push 5, `(7/2, 9/2, 1, 1, 69)`: the span `[3, 5)` is in turn
bisected, the left subtree of the root reaches true height 2 while the right
subtree has height 0 — the balance invariant I4 is now violated at the root —
yet no rotation fires because the root's stale stored height makes its stored
balance factor `-1`. -/
def c3buf5 : SBuffer :=
  ⟨[(6, ⟨none, none, 9/2, 5, 1/10, 1/10, 0, 65⟩),
    (5, ⟨none, none, 3, 7/2, 1/10, 1/10, 0, 65⟩),
    (4, ⟨some 5, some 6, 7/2, 9/2, 1, 1, 1, 69⟩),
    (3, ⟨none, none, 0, 1, 1/10, 1/10, 0, 65⟩),
    (2, ⟨none, none, 30, 40, 1/10, 1/10, 0, 67⟩),
    (1, ⟨some 3, some 4, 1, 3, 1/2, 1/2, 1, 68⟩),
    (0, ⟨some 1, some 2, 10, 20, 1/10, 1/10, 1, 82⟩)], 7, some 0, 64, 1, 16⟩

set_option maxRecDepth 60000 in
/-- C3: a single valid `SB_Push` on a buffer (reached by four valid pushes
from a fresh buffer) in which every span satisfies the balance invariant
`|h(next) − h(prev)| ≤ 1` (true heights, `h(nil) = -1`) returns successfully
yet leaves the root span with `|h(next) − h(prev)| = 2`.  The root's stored
height went stale during push 4 (a bisection deep in the tree with no leaf
attach skips the ancestors' height updates), so push 5 does not detect the
imbalance it creates. -/
theorem C3_balance_not_preserved :
    SB_Push (SB_Init 64 1 16) 10 20 (1/10) (1/10) 82 = some (c3buf1, PushRet.ok) ∧
    SB_Push c3buf1 0 5 (1/10) (1/10) 65 = some (c3buf2, PushRet.ok) ∧
    SB_Push c3buf2 30 40 (1/10) (1/10) 67 = some (c3buf3, PushRet.ok) ∧
    SB_Push c3buf3 1 3 (1/2) (1/2) 68 = some (c3buf4, PushRet.ok) ∧
    (bufTree c3buf4).map tBalanced = some true ∧
    SB_Push c3buf4 (7/2) (9/2) 1 1 69 = some (c3buf5, PushRet.ok) ∧
    (bufTree c3buf5).map tBalanced = some false ∧
    (7/2 : ℚ) < 9/2 ∧ (0:ℚ) < 1 := by
  refine ⟨?_, ?_, ?_, ?_, ?_, ?_, ?_, ?_, ?_⟩ <;> decide

/- ------------------------------------------------------------------ -/
/- C5: occluded push and buffer mutation.                              -/

/-- A crafted buffer whose spans violate the order invariant: the root span
`[0, 10)` (far, `w = 1/4`) has the span `[0, 10)` (near, `w = 1`) as its
`prev` child. -/
def c5buf : SBuffer :=
  ⟨[(0, ⟨some 1, none, 0, 10, 1/4, 1/4, 1, 80⟩),
    (1, ⟨none, none, 0, 10, 1, 1, 0, 81⟩)], 2, some 0, 64, 1, 8⟩

/-- State of `c5buf` after pushing `(0, 5, 1/2, 1/2)`: the root was clipped
(CASE-R7, `x0` moved from 0 to 5) before the candidate was found to be
occluded by the near span, so the push returns 1 through the
"spot fully occluded" path with a mutated buffer. -/
def c5buf' : SBuffer :=
  ⟨[(0, ⟨some 1, none, 5, 10, 1/4, 1/4, 1, 80⟩),
    (1, ⟨none, none, 0, 10, 1, 1, 0, 81⟩)], 2, some 0, 64, 1, 8⟩

set_option maxRecDepth 60000 in
/-- C5 counterexample: as literally stated — over every buffer and push —
the claim is false.  On the crafted buffer `c5buf` the push
`(0, 5, 1/2, 1/2, 88)` returns 1 through the occluded path (not the
max-depth path), yet the buffer has changed: the root span's `x0` was
clipped from 0 to 5. -/
theorem C5_counterexample :
    SB_Push c5buf 0 5 (1/2) (1/2) 88 = some (c5buf', PushRet.notPushed) ∧
    c5buf' ≠ c5buf ∧
    (hGet c5buf'.heap 0).map (fun r => r.x0) = some 5 ∧
    (hGet c5buf.heap 0).map (fun r => r.x0) = some 0 := by
  refine ⟨?_, ?_, ?_, ?_⟩ <;> decide

/- ------------------------------------------------------------------ -/
/- C8: the leftness output of SB_SpanIntersect.                        -/

/-- Reconstruction of a view-plane point from a screen-space abscissa and a
reciprocal depth, exactly as in `SB_SpanIntersect` (and as described in
section 4.1 of the specification):
`x_view = (x - size/2) * (1/w) / z_near`, `z_view = 1/w`. -/
def viewPt (x w bufferWidth zNear : ℚ) : Span2 :=
  ⟨(x - bufferWidth * (1 / 2)) * (1 / w) * (1 / zNear), 1 / w⟩

set_option maxRecDepth 60000 in
/-- C8 counterexample: the claim states that in every outcome other than
`INTERSECTING` the leftness equals the cross of `(U.start − P)` and
`(V.start − P)` with `P = V.start` — which is the cross of a vector with the
zero vector, that is, `0`.  On this `NOT_INTERSECTING` input the code
produces `-4 ≠ 0` (it uses `U.end`, not `U.start`, and `V`'s direction
vector). -/
theorem C8_counterexample :
    (SB_SpanIntersect 0 1 1 1 5 1 (5/2) (1/2) 0 1).res = SB_NOT_INTERSECTING ∧
    (SB_SpanIntersect 0 1 1 1 5 1 (5/2) (1/2) 0 1).leftness = -4 ∧
    crossSpan2
      ⟨(viewPt 0 1 0 1).x - (viewPt 5 1 0 1).x, (viewPt 0 1 0 1).z - (viewPt 5 1 0 1).z⟩
      ⟨(viewPt 5 1 0 1).x - (viewPt 5 1 0 1).x, (viewPt 5 1 0 1).z - (viewPt 5 1 0 1).z⟩ = 0 ∧
    (-4 : ℚ) ≠ 0 := by
  refine ⟨?_, ?_, ?_, ?_⟩ <;> decide

/- ------------------------------------------------------------------ -/
/- C7: classification of SB_Intersect2D outcomes.                      -/

/-- Three view-plane points are collinear: the cross of the two difference
vectors vanishes. -/
def collin3 (p q r : Span2) : Prop :=
  crossSpan2 ⟨q.x - p.x, q.z - p.z⟩ ⟨r.x - p.x, r.z - p.z⟩ = 0

/-- All four segment endpoints lie on one common line (every triple is
collinear; the four triples together capture degenerate segments as well). -/
def collin4 (a b c d : Span2) : Prop :=
  collin3 a b c ∧ collin3 a b d ∧ collin3 a c d ∧ collin3 b c d

instance (p q r : Span2) : Decidable (collin3 p q r) := by
  unfold collin3; infer_instance

instance (a b c d : Span2) : Decidable (collin4 a b c d) := by
  unfold collin4; infer_instance

set_option maxRecDepth 60000 in
/-- C7 counterexample: with `A = (0,0)`, `B = (1,0)` and the degenerate
segment `C = D = (0,1)`, the cross product of the direction vectors is zero
and the segments are not collinear, so the claim demands `PARALLEL`; the code
returns `DEGENERATE` (both `numer_t` and `denom` vanish because `CD`'s
direction vector is zero). -/
theorem C7_counterexample :
    crossSpan2 ⟨1 - 0, 0 - 0⟩ ⟨0 - 0, 1 - 1⟩ = 0 ∧
    ¬ collin4 ⟨0, 0⟩ ⟨1, 0⟩ ⟨0, 1⟩ ⟨0, 1⟩ ∧
    (SB_Intersect2D ⟨0, 0⟩ ⟨1, 0⟩ ⟨0, 1⟩ ⟨0, 1⟩).1 ≠ SB_PARALLEL ∧
    (SB_Intersect2D ⟨0, 0⟩ ⟨1, 0⟩ ⟨0, 1⟩ ⟨0, 1⟩).1 = SB_DEGENERATE := by
  refine ⟨?_, ?_, ?_, ?_⟩ <;> decide

/- ------------------------------------------------------------------ -/
/- Supporting lemmas.                                                  -/

/-- The arithmetic `SB_MAX` encoding computes the maximum. -/
theorem sbMax_eq_max (a b : ℚ) : sbMax a b = max a b := by
  unfold sbMax
  rcases lt_trichotomy a b with h | h | h
  · rw [if_neg (by linarith), if_pos (le_of_lt h)]
    simp [max_eq_right (le_of_lt h)]
  · subst h
    simp
  · rw [if_pos h, if_neg (by linarith)]
    simp [max_eq_left (le_of_lt h)]

/-- `SB_MAX(q, 0)` is nonnegative. -/
theorem sbMax_nonneg (a : ℚ) : 0 ≤ sbMax a 0 := by
  rw [sbMax_eq_max]
  exact le_max_right a 0

/-- A run of the outer insertion loop with nothing left to insert exits
immediately, independently of the fuel. -/
theorem pushLoop_of_nonpos (x0 x1 w0 w1 : ℚ) (id : Nat) (fuel : Nat) (st : PState)
    (h : ¬ st.remaining > 0) :
    pushLoop x0 x1 w0 w1 id fuel st = some (Sum.inl st) := by
  cases fuel <;> simp [pushLoop, h]

/-- The C cast `(int)` agrees with the floor on nonnegative values. -/
theorem ctruncZ_of_nonneg (q : ℚ) (h : 0 ≤ q) : ctruncZ q = ⌊q⌋ := if_pos h

/- ------------------------------------------------------------------ -/
/- C10: pushes of nonpositive width.                                   -/

/-- C10: for every buffer (empty or not) and any `w0`, `w1`, `id`, calling
`SB_Push` with `x1 ≤ x0` returns 1 (the `notPushed` outcome, whose C return
value is 1) and leaves the buffer completely unchanged: on an empty buffer
the clipped size is nonpositive so no root is installed, and on a non-empty
buffer `remaining = x1 - x0` is nonpositive so the insertion loop body never
executes. -/
theorem C10_nonpositive_width (sb : SBuffer) (x0 x1 w0 w1 : ℚ) (id : Nat)
    (h : x1 ≤ x0) :
    SB_Push sb x0 x1 w0 w1 id = some (sb, PushRet.notPushed) ∧
    retcode PushRet.notPushed = 1 := by
  refine ⟨?_, rfl⟩
  have hno : ¬ (x1 - x0 > 0) := by linarith
  rcases hr : sb.root with _ | rootA
  · simp only [SB_Push, hr, pushEmptyRoot]
    have h1 : ¬ (x1 - x0 - sbMax (x1 - (sb.size : ℚ)) 0 - sbMax (-x0) 0 > 0) := by
      have h2 := sbMax_nonneg (x1 - (sb.size : ℚ))
      have h3 := sbMax_nonneg (-x0)
      push_neg
      linarith
    rw [if_neg h1]
  · simp only [SB_Push, hr]
    rw [pushLoop_of_nonpos x0 x1 w0 w1 id pushFuel _ hno]
    simp only [stToBuf]
    rw [← hr]
    rfl

/-- C10 witness: a width-zero push `(5, 5)` on a fresh width-8 buffer. -/
theorem C10_witness :
    (5 : ℚ) ≤ 5 ∧
    (SB_Push (SB_Init 8 1 8) 5 5 1 1 66 = some (SB_Init 8 1 8, PushRet.notPushed) ∧
      retcode PushRet.notPushed = 1) :=
  ⟨le_refl 5, C10_nonpositive_width (SB_Init 8 1 8) 5 5 1 1 66 (le_refl 5)⟩

/- ------------------------------------------------------------------ -/
/- C9: the fixed-precision depth comparison.                           -/

/-- The specification's description of the occlusion comparison: both
reciprocal depths are rounded to 1e-6 fixed precision (multiplied by 1e6 and
cast to integer) before being compared, and at equality the candidate wins
exactly when the leftness is positive. -/
def specDepthCmpWins (pside cside leftness : ℚ) : Prop :=
  ⌊pside * 1000000⌋ < ⌊cside * 1000000⌋ ∨
    (⌊pside * 1000000⌋ = ⌊cside * 1000000⌋ ∧ leftness > 0)

/-- C9: the comparison used at both occlusion-decision sites of `SB_Push`
(`sbOccludeWins` is the verbatim transcription of lines 443-453 and 537-547,
and is invoked for both the candidate-starts-left and candidate-starts-inside
case families) coincides, on nonnegative reciprocal depths, with the
specification's rounding description: multiply by 1e6, truncate to an
integer, compare, and break equality by `leftness > 0`. -/
theorem C9_rounded_comparison (pside cside leftness : ℚ)
    (hp : 0 ≤ pside) (hc : 0 ≤ cside) :
    sbOccludeWins pside cside leftness = true ↔ specDepthCmpWins pside cside leftness := by
  have h1 : ctruncZ (pside * 1000000) = ⌊pside * 1000000⌋ :=
    ctruncZ_of_nonneg _ (by positivity)
  have h2 : ctruncZ (cside * 1000000) = ⌊cside * 1000000⌋ :=
    ctruncZ_of_nonneg _ (by positivity)
  simp [sbOccludeWins, specDepthCmpWins, h1, h2]

/-- C9 witness: a strict comparison and a tie broken by leftness. -/
theorem C9_witness :
    (0 : ℚ) ≤ 1 ∧ (0 : ℚ) ≤ 3/2 ∧
    (sbOccludeWins 1 (3/2) 0 = true ↔ specDepthCmpWins 1 (3/2) 0) :=
  ⟨by norm_num, by norm_num,
    C9_rounded_comparison 1 (3/2) 0 (by norm_num) (by norm_num)⟩

/- ------------------------------------------------------------------ -/
/- C6: the empty-root fast path.                                       -/

/-- Auxiliary identity behind the `SB_MAX`-based clipping: clipping from
above. -/
theorem clip_above (a b : ℚ) : a - max (a - b) 0 = min a b := by
  rcases le_total a b with h | h
  · rw [max_eq_right (by linarith), min_eq_left h]
    ring
  · rw [max_eq_left (by linarith), min_eq_right h]
    ring

/-- Auxiliary identity behind the `SB_MAX`-based clipping: clipping from
below. -/
theorem clip_below (a : ℚ) : a + max (-a) 0 = max a 0 := by
  rcases le_total a 0 with h | h
  · rw [max_eq_left (by linarith), max_eq_right h]
    ring
  · rw [max_eq_right (by linarith), max_eq_left h]
    ring

set_option maxRecDepth 4000 in
/-- C6: on an empty buffer (null root) with `x0 < x1`, `SB_Push` clips the
candidate to `[0, size)` by raising `x0` to `0` and lowering `x1` to `size`,
recomputing the endpoint `w` values by lerp over the original candidate; if a
positive-width interval remains it is allocated and installed as the root
span with height 0 and the given id, and the push returns 0 (`ok`);
otherwise nothing is installed, the buffer is returned unchanged, and the
push returns 1 (`notPushed`). -/
theorem C6_empty_root (sb : SBuffer) (x0 x1 w0 w1 : ℚ) (id : Nat)
    (hroot : sb.root = none) (hx : x0 < x1) :
    SB_Push sb x0 x1 w0 w1 id =
      some (if max x0 0 < min x1 (sb.size : ℚ) then
        ({ sb with
            heap := (sb.nextAddr,
              ⟨none, none, max x0 0, min x1 (sb.size : ℚ),
                sbLerp w0 w1 (max x0 0 - x0) (x1 - x0),
                sbLerp w0 w1 (min x1 (sb.size : ℚ) - x0) (x1 - x0), 0, id⟩) :: sb.heap,
            nextAddr := sb.nextAddr + 1,
            root := some sb.nextAddr }, PushRet.ok)
      else (sb, PushRet.notPushed)) ∧
    retcode PushRet.ok = 0 ∧ retcode PushRet.notPushed = 1 := by
  refine ⟨?_, rfl, rfl⟩
  simp only [SB_Push, hroot, pushEmptyRoot, sbSpan, sbMax_eq_max]
  have e1 : x1 - x0 - max (x1 - (sb.size : ℚ)) 0 - max (-x0) 0
      = min x1 (sb.size : ℚ) - max x0 0 := by
    have h1 := clip_above x1 (sb.size : ℚ)
    have h2 := clip_below x0
    linarith
  have e0 : x0 + max (-x0) 0 = max x0 0 := clip_below x0
  rw [e1, e0]
  have eB : max x0 0 + (min x1 (sb.size : ℚ) - max x0 0) = min x1 (sb.size : ℚ) := by
    ring
  rw [eB]
  have hc : (min x1 (sb.size : ℚ) - max x0 0 > 0) ↔ (max x0 0 < min x1 (sb.size : ℚ)) := by
    rw [gt_iff_lt, sub_pos]
  exact congrArg some (if_congr hc rfl rfl)

/-- C6 witness: the spec scenario, a single push `(0, 8, 1, 1, id 88)` on a
fresh buffer of width 8 installs the root span `[0, 8)` with height 0. -/
theorem C6_witness :
    (SB_Init 8 1 8).root = none ∧ (0 : ℚ) < 8 ∧
    SB_Push (SB_Init 8 1 8) 0 8 1 1 88 =
      some ({ SB_Init 8 1 8 with
        heap := [(0, ⟨none, none, 0, 8, 1, 1, 0, 88⟩)],
        nextAddr := 1, root := some 0 }, PushRet.ok) := by
  refine ⟨rfl, by norm_num, ?_⟩
  have h := (C6_empty_root (SB_Init 8 1 8) 0 8 1 1 88 rfl (by norm_num)).1
  rw [h]
  norm_num [SB_Init, sbLerp]

/- ------------------------------------------------------------------ -/
/- C8 amended: the leftness actually computed by SB_SpanIntersect.     -/

/-- The amended leftness description: over the reconstructed view-plane
endpoints, the leftness is the signed cross of `(U.start - P)` and
`(V.start - P)` with `P` the intersection point when the test reports
`INTERSECTING`; it is the signed cross of `(U.end - V.start)` and
`(V.end - V.start)` when the test reports `NOT_INTERSECTING`; and it is `0`
when the test reports `PARALLEL` or `DEGENERATE`. -/
def specLeftness (ux0 uw0 ux1 uw1 vx0 vw0 vx1 vw1 bufferWidth zNear : ℚ) : ℚ :=
  let us := viewPt ux0 uw0 bufferWidth zNear
  let ue := viewPt ux1 uw1 bufferWidth zNear
  let vs := viewPt vx0 vw0 bufferWidth zNear
  let ve := viewPt vx1 vw1 bufferWidth zNear
  let r := SB_Intersect2D us ue vs ve
  if r.1 = SB_INTERSECTING then
    crossSpan2 ⟨us.x - r.2.x, us.z - r.2.z⟩ ⟨vs.x - r.2.x, vs.z - r.2.z⟩
  else if r.1 = SB_NOT_INTERSECTING then
    crossSpan2 ⟨ue.x - vs.x, ue.z - vs.z⟩ ⟨ve.x - vs.x, ve.z - vs.z⟩
  else 0

/-- The result code of `SB_Intersect2D` is one of the four constants. -/
theorem i2d_cases (a b c d : Span2) :
    (SB_Intersect2D a b c d).1 = SB_INTERSECTING ∨
    (SB_Intersect2D a b c d).1 = SB_PARALLEL ∨
    (SB_Intersect2D a b c d).1 = SB_DEGENERATE ∨
    (SB_Intersect2D a b c d).1 = SB_NOT_INTERSECTING := by
  unfold SB_Intersect2D
  dsimp only
  split_ifs <;> simp

/-- C8 (amended): for every pair of spans passed to `SB_SpanIntersect`, the
leftness output equals `specLeftness`: the signed cross of `(U.start - P)`
and `(V.start - P)` about the intersection point `P` when the test reports
`INTERSECTING`, the signed cross of `(U.end - V.start)` and
`(V.end - V.start)` when it reports `NOT_INTERSECTING`, and `0` when it
reports `PARALLEL` or `DEGENERATE` (the original claim's "P = V.start in
every other outcome" formula is refuted separately). -/
theorem C8_leftness_amended (ux0 uw0 ux1 uw1 vx0 vw0 vx1 vw1 bufferWidth zNear : ℚ) :
    (SB_SpanIntersect ux0 uw0 ux1 uw1 vx0 vw0 vx1 vw1 bufferWidth zNear).leftness =
      specLeftness ux0 uw0 ux1 uw1 vx0 vw0 vx1 vw1 bufferWidth zNear := by
  simp only [SB_SpanIntersect, specLeftness, viewPt]
  generalize (ux0 - bufferWidth * (1 / 2)) * (1 / uw0) * (1 / zNear) = a1
  generalize (ux1 - bufferWidth * (1 / 2)) * (1 / uw1) * (1 / zNear) = a2
  generalize (vx0 - bufferWidth * (1 / 2)) * (1 / vw0) * (1 / zNear) = a3
  generalize (vx1 - bufferWidth * (1 / 2)) * (1 / vw1) * (1 / zNear) = a4
  generalize (1 : ℚ) / uw0 = b1
  generalize (1 : ℚ) / uw1 = b2
  generalize (1 : ℚ) / vw0 = b3
  generalize (1 : ℚ) / vw1 = b4
  rcases i2d_cases ⟨a1, b1⟩ ⟨a2, b2⟩ ⟨a3, b3⟩ ⟨a4, b4⟩
    with hr | hr | hr | hr <;>
  (rw [hr]; simp [SB_INTERSECTING, SB_PARALLEL, SB_DEGENERATE, SB_NOT_INTERSECTING])

/- ------------------------------------------------------------------ -/
/- C7 amended: classification of SB_Intersect2D, nondegenerate CD.     -/

/-- The `numer_t` determinant of `SB_Intersect2D`. -/
def i2dNumT (a _b c d : Span2) : ℚ :=
  crossSpan2 ⟨c.x - a.x, c.z - a.z⟩ ⟨d.x - c.x, d.z - c.z⟩

/-- The `numer_q` determinant of `SB_Intersect2D`. -/
def i2dNumQ (a b c _d : Span2) : ℚ :=
  crossSpan2 ⟨c.x - a.x, c.z - a.z⟩ ⟨b.x - a.x, b.z - a.z⟩

/-- The `denom` determinant of `SB_Intersect2D`: the cross product of the two
direction vectors. -/
def i2dDenom (a b c d : Span2) : ℚ :=
  crossSpan2 ⟨b.x - a.x, b.z - a.z⟩ ⟨d.x - c.x, d.z - c.z⟩

/-- The line parameter `t` of `SB_Intersect2D`. -/
def i2dT (a b c d : Span2) : ℚ := i2dNumT a b c d / i2dDenom a b c d

/-- The line parameter `q` of `SB_Intersect2D`. -/
def i2dQ (a b c d : Span2) : ℚ := i2dNumQ a b c d / i2dDenom a b c d

/-- `SB_Intersect2D` written as a decision tree over the named determinants;
definitionally equal to the original. -/
theorem i2d_spec (a b c d : Span2) :
    SB_Intersect2D a b c d =
      if i2dNumT a b c d ≠ 0 ∧ i2dDenom a b c d = 0 then (SB_PARALLEL, ⟨0, 0⟩)
      else if i2dNumT a b c d = 0 ∧ i2dDenom a b c d = 0 then (SB_DEGENERATE, ⟨0, 0⟩)
      else if i2dT a b c d ≤ qeps ∨ i2dT a b c d ≥ 1 - qeps ∨
          i2dQ a b c d ≤ qeps ∨ i2dQ a b c d ≥ 1 - qeps then
        (SB_NOT_INTERSECTING, ⟨0, 0⟩)
      else (SB_INTERSECTING,
        ⟨i2dT a b c d * (b.x - a.x) + a.x, i2dT a b c d * (b.z - a.z) + a.z⟩) := rfl

/-- Two vectors each parallel to a common nonzero vector are parallel to each
other. -/
theorem cross_aux (ux uz wx wz vx vz : ℚ) (hv : vx ≠ 0 ∨ vz ≠ 0)
    (h1 : ux * vz - uz * vx = 0) (h2 : wx * vz - wz * vx = 0) :
    ux * wz - uz * wx = 0 := by
  rcases hv with h | h
  · have h3 : (ux * wz - uz * wx) * vx = 0 := by linear_combination wx * h1 - ux * h2
    rcases mul_eq_zero.mp h3 with h4 | h4
    · exact h4
    · exact absurd h4 h
  · have h3 : (ux * wz - uz * wx) * vz = 0 := by linear_combination wz * h1 - uz * h2
    rcases mul_eq_zero.mp h3 with h4 | h4
    · exact h4
    · exact absurd h4 h

/-- For a nondegenerate segment `CD`, collinearity of the four endpoints is
equivalent to the vanishing of both `numer_t` and `denom`. -/
theorem collin4_iff (a b c d : Span2) (hv : d ≠ c) :
    collin4 a b c d ↔ i2dNumT a b c d = 0 ∧ i2dDenom a b c d = 0 := by
  have hvxz : d.x - c.x ≠ 0 ∨ d.z - c.z ≠ 0 := by
    rcases eq_or_ne d.x c.x with h1 | h1
    · rcases eq_or_ne d.z c.z with h2 | h2
      · exact absurd (by cases d; cases c; simp_all) hv
      · exact Or.inr (sub_ne_zero.mpr h2)
    · exact Or.inl (sub_ne_zero.mpr h1)
  constructor
  · rintro ⟨h1, h2, h3, h4⟩
    simp only [collin3, crossSpan2, cross2D] at h1 h2 h3 h4
    refine ⟨?_, ?_⟩ <;> simp only [i2dNumT, i2dDenom, crossSpan2, cross2D]
    · linear_combination h3
    · linear_combination h2 - h1
  · rintro ⟨hN, hD⟩
    simp only [i2dNumT, i2dDenom, crossSpan2, cross2D] at hN hD
    have huw : (b.x - a.x) * (c.z - a.z) - (b.z - a.z) * (c.x - a.x) = 0 :=
      cross_aux (b.x - a.x) (b.z - a.z) (c.x - a.x) (c.z - a.z)
        (d.x - c.x) (d.z - c.z) hvxz (by linear_combination hD) (by linear_combination hN)
    refine ⟨?_, ?_, ?_, ?_⟩ <;> simp only [collin3, crossSpan2, cross2D]
    · linear_combination huw
    · linear_combination huw + hD
    · linear_combination hN
    · linear_combination hN - hD

/-- C7 (amended): for a nondegenerate segment `CD` (`d ≠ c`),
`SB_Intersect2D` returns `PARALLEL` exactly when the cross product of the
direction vectors is zero but the four endpoints are not collinear;
`DEGENERATE` exactly when they are collinear; `NOT_INTERSECTING` exactly when
the directions are not parallel and a parameter `t` or `q` falls outside the
open interval `(1e-6, 1 - 1e-6)`; and `INTERSECTING` — storing the point
`A + t (B - A)` — exactly when the directions are not parallel and both
parameters are strictly inside that interval.  (For a degenerate `CD` the
claim fails; see the counterexample.) -/
theorem C7_classification_amended (a b c d : Span2) (hv : d ≠ c) :
    ((SB_Intersect2D a b c d).1 = SB_PARALLEL ↔
      i2dDenom a b c d = 0 ∧ ¬ collin4 a b c d) ∧
    ((SB_Intersect2D a b c d).1 = SB_DEGENERATE ↔ collin4 a b c d) ∧
    ((SB_Intersect2D a b c d).1 = SB_NOT_INTERSECTING ↔
      i2dDenom a b c d ≠ 0 ∧
        (i2dT a b c d ≤ qeps ∨ i2dT a b c d ≥ 1 - qeps ∨
          i2dQ a b c d ≤ qeps ∨ i2dQ a b c d ≥ 1 - qeps)) ∧
    ((SB_Intersect2D a b c d).1 = SB_INTERSECTING ↔
      i2dDenom a b c d ≠ 0 ∧
        qeps < i2dT a b c d ∧ i2dT a b c d < 1 - qeps ∧
        qeps < i2dQ a b c d ∧ i2dQ a b c d < 1 - qeps) ∧
    ((SB_Intersect2D a b c d).1 = SB_INTERSECTING →
      (SB_Intersect2D a b c d).2 =
        ⟨i2dT a b c d * (b.x - a.x) + a.x, i2dT a b c d * (b.z - a.z) + a.z⟩) := by
  have hcol := collin4_iff a b c d hv
  rw [i2d_spec]
  split_ifs with h1 h2 h3
  · refine ⟨⟨fun _ => ⟨h1.2, fun hc => absurd (hcol.mp hc).1 h1.1⟩, fun _ => rfl⟩,
      ⟨fun h => absurd h (by decide), fun hc => absurd (hcol.mp hc).1 h1.1⟩,
      ⟨fun h => absurd h (by decide), fun hr => absurd h1.2 hr.1⟩,
      ⟨fun h => absurd h (by decide), fun hr => absurd h1.2 hr.1⟩,
      fun h => absurd h (by decide)⟩
  · refine ⟨⟨fun h => absurd h (by decide), fun hr => absurd (hcol.mpr h2) hr.2⟩,
      ⟨fun _ => hcol.mpr h2, fun _ => rfl⟩,
      ⟨fun h => absurd h (by decide), fun hr => absurd h2.2 hr.1⟩,
      ⟨fun h => absurd h (by decide), fun hr => absurd h2.2 hr.1⟩,
      fun h => absurd h (by decide)⟩
  · have hD : i2dDenom a b c d ≠ 0 := by
      intro h0
      rcases eq_or_ne (i2dNumT a b c d) 0 with hN | hN
      · exact h2 ⟨hN, h0⟩
      · exact h1 ⟨hN, h0⟩
    refine ⟨⟨fun h => absurd h (by decide), fun hr => absurd hr.1 hD⟩,
      ⟨fun h => absurd h (by decide), fun hc => absurd (hcol.mp hc).2 hD⟩,
      ⟨fun _ => ⟨hD, h3⟩, fun _ => rfl⟩,
      ⟨fun h => absurd h (by decide), ?_⟩,
      fun h => absurd h (by decide)⟩
    rintro ⟨_, ht1, ht2, hq1, hq2⟩
    exact absurd h3 (by push_neg; exact ⟨ht1, ht2, hq1, hq2⟩)
  · have hD : i2dDenom a b c d ≠ 0 := by
      intro h0
      rcases eq_or_ne (i2dNumT a b c d) 0 with hN | hN
      · exact h2 ⟨hN, h0⟩
      · exact h1 ⟨hN, h0⟩
    have h4 : qeps < i2dT a b c d ∧ i2dT a b c d < 1 - qeps ∧
        qeps < i2dQ a b c d ∧ i2dQ a b c d < 1 - qeps := by
      push_neg at h3
      exact h3
    refine ⟨⟨fun h => absurd h (by simp [SB_INTERSECTING, SB_PARALLEL]), fun hr => absurd hr.1 hD⟩,
      ⟨fun h => absurd h (by simp [SB_INTERSECTING, SB_DEGENERATE]), fun hc => absurd (hcol.mp hc).2 hD⟩,
      ⟨fun h => absurd h (by simp [SB_INTERSECTING, SB_NOT_INTERSECTING]),
        fun hr => absurd hr.2 (by push_neg; exact h4)⟩,
      ⟨fun _ => ⟨hD, h4⟩, fun _ => rfl⟩,
      fun _ => rfl⟩

/-- C7 amended witness: `A = (-1,0)`, `B = (1,0)`, `C = (0,-1)`, `D = (0,1)`:
the segments cross at the origin with `t = q = 1/2`. -/
theorem C7_amended_witness :
    (⟨0, 1⟩ : Span2) ≠ ⟨0, -1⟩ ∧
    (((SB_Intersect2D ⟨-1, 0⟩ ⟨1, 0⟩ ⟨0, -1⟩ ⟨0, 1⟩).1 = SB_PARALLEL ↔
      i2dDenom ⟨-1, 0⟩ ⟨1, 0⟩ ⟨0, -1⟩ ⟨0, 1⟩ = 0 ∧
        ¬ collin4 ⟨-1, 0⟩ ⟨1, 0⟩ ⟨0, -1⟩ ⟨0, 1⟩) ∧
    ((SB_Intersect2D ⟨-1, 0⟩ ⟨1, 0⟩ ⟨0, -1⟩ ⟨0, 1⟩).1 = SB_DEGENERATE ↔
      collin4 ⟨-1, 0⟩ ⟨1, 0⟩ ⟨0, -1⟩ ⟨0, 1⟩) ∧
    ((SB_Intersect2D ⟨-1, 0⟩ ⟨1, 0⟩ ⟨0, -1⟩ ⟨0, 1⟩).1 = SB_NOT_INTERSECTING ↔
      i2dDenom ⟨-1, 0⟩ ⟨1, 0⟩ ⟨0, -1⟩ ⟨0, 1⟩ ≠ 0 ∧
        (i2dT ⟨-1, 0⟩ ⟨1, 0⟩ ⟨0, -1⟩ ⟨0, 1⟩ ≤ qeps ∨
          i2dT ⟨-1, 0⟩ ⟨1, 0⟩ ⟨0, -1⟩ ⟨0, 1⟩ ≥ 1 - qeps ∨
          i2dQ ⟨-1, 0⟩ ⟨1, 0⟩ ⟨0, -1⟩ ⟨0, 1⟩ ≤ qeps ∨
          i2dQ ⟨-1, 0⟩ ⟨1, 0⟩ ⟨0, -1⟩ ⟨0, 1⟩ ≥ 1 - qeps)) ∧
    ((SB_Intersect2D ⟨-1, 0⟩ ⟨1, 0⟩ ⟨0, -1⟩ ⟨0, 1⟩).1 = SB_INTERSECTING ↔
      i2dDenom ⟨-1, 0⟩ ⟨1, 0⟩ ⟨0, -1⟩ ⟨0, 1⟩ ≠ 0 ∧
        qeps < i2dT ⟨-1, 0⟩ ⟨1, 0⟩ ⟨0, -1⟩ ⟨0, 1⟩ ∧
        i2dT ⟨-1, 0⟩ ⟨1, 0⟩ ⟨0, -1⟩ ⟨0, 1⟩ < 1 - qeps ∧
        qeps < i2dQ ⟨-1, 0⟩ ⟨1, 0⟩ ⟨0, -1⟩ ⟨0, 1⟩ ∧
        i2dQ ⟨-1, 0⟩ ⟨1, 0⟩ ⟨0, -1⟩ ⟨0, 1⟩ < 1 - qeps) ∧
    ((SB_Intersect2D ⟨-1, 0⟩ ⟨1, 0⟩ ⟨0, -1⟩ ⟨0, 1⟩).1 = SB_INTERSECTING →
      (SB_Intersect2D ⟨-1, 0⟩ ⟨1, 0⟩ ⟨0, -1⟩ ⟨0, 1⟩).2 =
        ⟨i2dT ⟨-1, 0⟩ ⟨1, 0⟩ ⟨0, -1⟩ ⟨0, 1⟩ * ((1 : ℚ) - -1) + -1,
          i2dT ⟨-1, 0⟩ ⟨1, 0⟩ ⟨0, -1⟩ ⟨0, 1⟩ * ((0 : ℚ) - 0) + 0⟩)) :=
  ⟨by decide, C7_classification_amended ⟨-1, 0⟩ ⟨1, 0⟩ ⟨0, -1⟩ ⟨0, 1⟩ (by decide)⟩

/- ------------------------------------------------------------------ -/
/- C4: heap lemmas and geometry preservation.                          -/

/-- Lookup through a freshly consed heap cell. -/
theorem hGet_cons (h : Heap) (a b : Nat) (r : SpanRec) :
    hGet ((b, r) :: h) a = if a = b then some r else hGet h a := by
  by_cases hab : a = b
  · simp [hGet, List.lookup_cons, hab]
  · simp [hGet, List.lookup_cons, hab, beq_false_of_ne hab]

/-- Lookup through the store map underlying `hSet`. -/
theorem lookup_map_set (t : Heap) (a b : Nat) (r : SpanRec) :
    (t.map fun p => if p.1 = a then (a, r) else p).lookup b =
      if b = a then ((t.lookup a).map fun _ => r) else t.lookup b := by
  induction t with
  | nil => by_cases hba : b = a <;> simp [List.lookup, hba]
  | cons kv t ih =>
    obtain ⟨k, v⟩ := kv
    by_cases hk : k = a
    · subst hk
      by_cases hb : b = k
      · subst hb
        simp [List.lookup_cons]
      · simp [List.lookup_cons, beq_false_of_ne hb, hb, ih]
    · by_cases hb : b = k
      · subst hb
        simp [List.lookup_cons, hk]
      · by_cases hba : b = a
        · subst hba
          simp [List.lookup_cons, beq_false_of_ne hb, ih, hk]
        · simp [List.lookup_cons, beq_false_of_ne hb, hba, ih, hk]

/-- A successful store makes the target address hold the stored record. -/
theorem hSet_get_eq (h : Heap) (a : Nat) (r : SpanRec) (h' : Heap)
    (hs : hSet h a r = some h') : hGet h' a = some r := by
  unfold hSet at hs
  by_cases hp : (h.lookup a).isSome
  · rw [if_pos hp] at hs
    obtain rfl := Option.some.inj hs
    rw [hGet, lookup_map_set, if_pos rfl]
    obtain ⟨v, hv⟩ := Option.isSome_iff_exists.mp hp
    rw [hv]
    rfl
  · rw [if_neg hp] at hs
    exact absurd hs (by simp)

/-- A successful store leaves every other address unchanged. -/
theorem hSet_get_ne (h : Heap) (a b : Nat) (r : SpanRec) (h' : Heap)
    (hs : hSet h a r = some h') (hne : b ≠ a) : hGet h' b = hGet h b := by
  unfold hSet at hs
  by_cases hp : (h.lookup a).isSome
  · rw [if_pos hp] at hs
    obtain rfl := Option.some.inj hs
    rw [hGet, lookup_map_set, if_neg hne]
    rfl
  · rw [if_neg hp] at hs
    exact absurd hs (by simp)

/-- Two span records with the same geometry fields (`x0`, `x1`, `w0`, `w1`,
`id`); the link and height fields may differ. -/
def sameGeo (r r' : SpanRec) : Prop :=
  r'.x0 = r.x0 ∧ r'.x1 = r.x1 ∧ r'.w0 = r.w0 ∧ r'.w1 = r.w1 ∧ r'.id = r.id

theorem sameGeo_refl (r : SpanRec) : sameGeo r r := ⟨rfl, rfl, rfl, rfl, rfl⟩

theorem sameGeo_trans {r s t : SpanRec} (h1 : sameGeo r s) (h2 : sameGeo s t) :
    sameGeo r t := by
  obtain ⟨a1, a2, a3, a4, a5⟩ := h1
  obtain ⟨b1, b2, b3, b4, b5⟩ := h2
  exact ⟨b1.trans a1, b2.trans a2, b3.trans a3, b4.trans a4, b5.trans a5⟩

/-- A heap step that may rewire links and heights but never moves the
geometry of any live record. -/
def geoPres (h h' : Heap) : Prop :=
  ∀ a r, hGet h a = some r → ∃ r', hGet h' a = some r' ∧ sameGeo r r'

theorem geoPres_refl (h : Heap) : geoPres h h :=
  fun _ r hr => ⟨r, hr, sameGeo_refl r⟩

theorem geoPres_trans {h1 h2 h3 : Heap} (p1 : geoPres h1 h2) (p2 : geoPres h2 h3) :
    geoPres h1 h3 := by
  intro a r hr
  obtain ⟨s, hs, g1⟩ := p1 a r hr
  obtain ⟨t, ht, g2⟩ := p2 a s hs
  exact ⟨t, ht, sameGeo_trans g1 g2⟩

theorem geoPres_of_hSet {h h' : Heap} {a : Nat} {rOld rNew : SpanRec}
    (hg : hGet h a = some rOld) (hgeo : sameGeo rOld rNew)
    (hs : hSet h a rNew = some h') : geoPres h h' := by
  intro b rb hb
  by_cases hba : b = a
  · subst hba
    rw [hb] at hg
    obtain rfl := Option.some.inj hg
    exact ⟨rNew, hSet_get_eq _ _ _ _ hs, hgeo⟩
  · exact ⟨rb, by rw [hSet_get_ne _ _ _ _ _ hs hba]; exact hb, sameGeo_refl rb⟩

/-- Eliminate one monadic bind of a successful `Option` computation. -/
theorem obind_eq_some {α β : Type} {x : Option α} {f : α → Option β} {b : β}
    (h : x >>= f = some b) : ∃ a, x = some a ∧ f a = some b := by
  cases x with
  | none => exact Option.noConfusion h
  | some a => exact ⟨a, rfl, h⟩

theorem setPrevAt_geo {h h' : Heap} {a : Nat} {p : Option Nat}
    (hs : setPrevAt h a p = some h') : geoPres h h' := by
  unfold setPrevAt at hs
  obtain ⟨r, hr, hs⟩ := obind_eq_some hs
  exact geoPres_of_hSet hr (by simp [sameGeo]) hs

theorem setNextAt_geo {h h' : Heap} {a : Nat} {p : Option Nat}
    (hs : setNextAt h a p = some h') : geoPres h h' := by
  unfold setNextAt at hs
  obtain ⟨r, hr, hs⟩ := obind_eq_some hs
  exact geoPres_of_hSet hr (by simp [sameGeo]) hs

theorem setHeightAt_geo {h h' : Heap} {a : Nat}
    (hs : setHeightAt h a = some h') : geoPres h h' := by
  unfold setHeightAt at hs
  obtain ⟨r, hr, hs⟩ := obind_eq_some hs
  obtain ⟨v, hv, hs⟩ := obind_eq_some hs
  exact geoPres_of_hSet hr (by simp [sameGeo]) hs

theorem rotatePrevSide_geo {h : Heap} {oldP : Nat} {res : Nat × Option Nat × Heap}
    (hs : rotatePrevSide h oldP = some res) : geoPres h res.2.2 := by
  unfold rotatePrevSide at hs
  obtain ⟨orec, ho, hs⟩ := obind_eq_some hs
  obtain ⟨npA0, hnp, hs⟩ := obind_eq_some hs
  obtain ⟨nrec0, hn0, hs⟩ := obind_eq_some hs
  obtain ⟨nbf, hbf, hs⟩ := obind_eq_some hs
  by_cases hb : nbf > 0
  · rw [if_pos hb] at hs
    obtain ⟨np2, hn2, hs⟩ := obind_eq_some hs
    obtain ⟨n2rec, hg2, hs⟩ := obind_eq_some hs
    obtain ⟨hx, hhx, hs⟩ := obind_eq_some hs
    obtain ⟨hy, hhy, hs⟩ := obind_eq_some hs
    obtain ⟨y, hyy, hs⟩ := obind_eq_some hs
    obtain rfl := Option.some.inj hyy
    obtain ⟨nrec1, hn1, hs⟩ := obind_eq_some hs
    obtain ⟨h2, hh2, hs⟩ := obind_eq_some hs
    obtain ⟨h3, hh3, hs⟩ := obind_eq_some hs
    obtain rfl := Option.some.inj hs
    exact geoPres_trans (geoPres_of_hSet hn0 (by simp [sameGeo]) hhx)
      (geoPres_trans (setPrevAt_geo hhy)
        (geoPres_trans (setPrevAt_geo hh2) (setNextAt_geo hh3)))
  · rw [if_neg hb] at hs
    obtain ⟨y, hyy, hs⟩ := obind_eq_some hs
    obtain rfl := Option.some.inj hyy
    obtain ⟨nrec1, hn1, hs⟩ := obind_eq_some hs
    obtain ⟨h2, hh2, hs⟩ := obind_eq_some hs
    obtain ⟨h3, hh3, hs⟩ := obind_eq_some hs
    obtain rfl := Option.some.inj hs
    exact geoPres_trans (setPrevAt_geo hh2) (setNextAt_geo hh3)

theorem updateRotHeights_geo {h h' : Heap} {oldP : Nat} {childA : Option Nat}
    {npA : Nat} (hs : updateRotHeights h oldP childA npA = some h') :
    geoPres h h' := by
  unfold updateRotHeights at hs
  obtain ⟨hh1, h1, hs⟩ := obind_eq_some hs
  obtain ⟨c, hc, hs⟩ := obind_eq_some hs
  obtain ⟨hh2, h2, hs⟩ := obind_eq_some hs
  exact geoPres_trans (setHeightAt_geo h1)
    (geoPres_trans (setHeightAt_geo h2) (setHeightAt_geo hs))

theorem bisectLeftFix_geo {h h' : Heap} {parent ls : Nat}
    (hs : bisectLeftFix h parent ls = some h') : geoPres h h' := by
  unfold bisectLeftFix at hs
  obtain ⟨lrec, hl, hs⟩ := obind_eq_some hs
  obtain ⟨bf, hbf, hs⟩ := obind_eq_some hs
  by_cases hb : bf < -1
  · rw [if_pos hb] at hs
    obtain ⟨⟨npA, childA, h1⟩, hrot, hs⟩ := obind_eq_some hs
    obtain ⟨h2, h2c, hs⟩ := obind_eq_some hs
    exact geoPres_trans (rotatePrevSide_geo hrot)
      (geoPres_trans (setPrevAt_geo h2c) (updateRotHeights_geo hs))
  · rw [if_neg hb] at hs
    exact setHeightAt_geo hs

/-- The `w`-profile of a span record: the reciprocal depth obtained by
linear interpolation over the span, as read off by the renderer. -/
def spanWAt (r : SpanRec) (xx : ℚ) : ℚ := sbLerp r.w0 r.w1 (xx - r.x0) (r.x1 - r.x0)

/-- Restricting a linear interpolation to a subinterval re-lerps to the same
profile. -/
theorem sbLerp_restrict (w0 w1 x0 x1 y0 y1 xx : ℚ) (hx : x1 - x0 ≠ 0)
    (hy : y1 - y0 ≠ 0) :
    sbLerp (sbLerp w0 w1 (y0 - x0) (x1 - x0)) (sbLerp w0 w1 (y1 - x0) (x1 - x0))
      (xx - y0) (y1 - y0) = sbLerp w0 w1 (xx - x0) (x1 - x0) := by
  unfold sbLerp
  field_simp
  ring

/-- A lerp at parameter 0 returns the left value. -/
theorem sbLerp_zero (a b t : ℚ) : sbLerp a b 0 t = a := by
  simp [sbLerp]

/-- A lerp at full parameter returns the right value. -/
theorem sbLerp_full (a b t : ℚ) (ht : t ≠ 0) : sbLerp a b t t = b := by
  unfold sbLerp
  rw [mul_div_assoc, div_self ht]
  ring

/-- C4: a successful `SB_BisectParent` on a parent `[p0, p1)` with depths
`(q0, q1)` and id `id_old`, for an incoming span `[x0, x1)` with depths
`(w0, w1)` and fresh addresses `na`, `na + 1`, under
`p0 < visx0 < visx1 < p1` and `x0 < x1`: the allocation counter advances by
two; the parent now holds `[visx0, visx1)` with depths lerped from
`(w0, w1)` over `[x0, x1)` and the incoming id, and its `w`-profile is that
of the incoming span; the left fragment at `na` holds `[p0, visx0)` with
depths `(q0, lerp(q0, q1, visx0 - p0, p1 - p0))` and the old id, and the
right fragment at `na + 1` holds `[visx1, p1)` with depths
`(lerp(q0, q1, visx1 - p0, p1 - p0), q1)` and the old id, both fragments
reproducing the original parent's `w`-profile on their flanks — so the
profile over `[p0, p1)` is the piecewise linear function that agrees with
the original parent on the flanks and with the incoming span on the middle
interval. -/
theorem C4_bisect_conservation
    (h : Heap) (na parent : Nat) (x0 x1 w0 w1 visx0 visx1 : ℚ) (id : Nat)
    (prec : SpanRec) (h' : Heap) (na' : Nat)
    (hp : hGet h parent = some prec)
    (hf1 : hGet h na = none) (hf2 : hGet h (na + 1) = none)
    (hg0 : prec.x0 < visx0) (hg1 : visx0 < visx1) (hg2 : visx1 < prec.x1)
    (hx : x0 < x1)
    (hrun : SB_BisectParent h na parent x0 x1 w0 w1 visx0 visx1 id = some (h', na')) :
    na' = na + 2 ∧
    (∃ pr, hGet h' parent = some pr ∧ pr.x0 = visx0 ∧ pr.x1 = visx1 ∧
      pr.w0 = sbLerp w0 w1 (visx0 - x0) (x1 - x0) ∧
      pr.w1 = sbLerp w0 w1 (visx1 - x0) (x1 - x0) ∧ pr.id = id ∧
      (∀ xx, spanWAt pr xx = sbLerp w0 w1 (xx - x0) (x1 - x0))) ∧
    (∃ lr, hGet h' na = some lr ∧ lr.x0 = prec.x0 ∧ lr.x1 = visx0 ∧
      lr.w0 = prec.w0 ∧
      lr.w1 = sbLerp prec.w0 prec.w1 (visx0 - prec.x0) (prec.x1 - prec.x0) ∧
      lr.id = prec.id ∧
      (∀ xx, spanWAt lr xx = spanWAt prec xx)) ∧
    (∃ rr, hGet h' (na + 1) = some rr ∧ rr.x0 = visx1 ∧ rr.x1 = prec.x1 ∧
      rr.w0 = sbLerp prec.w0 prec.w1 (visx1 - prec.x0) (prec.x1 - prec.x0) ∧
      rr.w1 = prec.w1 ∧ rr.id = prec.id ∧
      (∀ xx, spanWAt rr xx = spanWAt prec xx)) := by
  have hpna : parent ≠ na := by
    intro he
    rw [he, hf1] at hp
    exact Option.noConfusion hp
  have hpna1 : parent ≠ na + 1 := by
    intro he
    rw [he, hf2] at hp
    exact Option.noConfusion hp
  have hxne : x1 - x0 ≠ 0 := sub_ne_zero.mpr hx.ne'
  have hvne : visx1 - visx0 ≠ 0 := sub_ne_zero.mpr hg1.ne'
  have hlne : visx0 - prec.x0 ≠ 0 := sub_ne_zero.mpr hg0.ne'
  have hrne : prec.x1 - visx1 ≠ 0 := sub_ne_zero.mpr hg2.ne'
  have hpne : prec.x1 - prec.x0 ≠ 0 :=
    sub_ne_zero.mpr ((hg0.trans (hg1.trans hg2)).ne')
  unfold SB_BisectParent at hrun
  obtain ⟨prec2, hp2, hrun⟩ := obind_eq_some hrun
  rw [hp] at hp2
  obtain rfl := Option.some.inj hp2
  obtain ⟨h1, hh1, hrun⟩ := obind_eq_some hrun
  obtain ⟨⟨h5, na1⟩, hlp, hrp⟩ := obind_eq_some hrun
  unfold bisectLeftPart at hlp
  obtain ⟨prec1, hprec1, hlp⟩ := obind_eq_some hlp
  obtain ⟨h3, hh3, hlp⟩ := obind_eq_some hlp
  obtain ⟨h4, hh4, hlp⟩ := obind_eq_some hlp
  obtain ⟨h5x, hh5, hlp⟩ := obind_eq_some hlp
  injection Option.some.inj hlp with e1 e2
  subst e1
  subst e2
  have hgeoL : geoPres ((na, (⟨none, none, prec.x0, visx0, prec.w0,
      sbLerp prec.w0 prec.w1 (visx0 - prec.x0) (prec.x1 - prec.x0), 0,
      prec.id⟩ : SpanRec)) :: h1) h5x :=
    geoPres_trans (setPrevAt_geo hh3)
      (geoPres_trans (setPrevAt_geo hh4) (bisectLeftFix_geo hh5))
  have hg2parent : hGet ((na, (⟨none, none, prec.x0, visx0, prec.w0,
      sbLerp prec.w0 prec.w1 (visx0 - prec.x0) (prec.x1 - prec.x0), 0,
      prec.id⟩ : SpanRec)) :: h1) parent =
      some ⟨prec.prev, prec.next, visx0, visx1,
        sbLerp w0 w1 (visx0 - x0) (x1 - x0),
        sbLerp w0 w1 (visx1 - x0) (x1 - x0), prec.height, id⟩ := by
    rw [hGet_cons, if_neg hpna]
    exact hSet_get_eq _ _ _ _ hh1
  have hg2na : hGet ((na, (⟨none, none, prec.x0, visx0, prec.w0,
      sbLerp prec.w0 prec.w1 (visx0 - prec.x0) (prec.x1 - prec.x0), 0,
      prec.id⟩ : SpanRec)) :: h1) na =
      some ⟨none, none, prec.x0, visx0, prec.w0,
        sbLerp prec.w0 prec.w1 (visx0 - prec.x0) (prec.x1 - prec.x0), 0,
        prec.id⟩ := by
    rw [hGet_cons, if_pos rfl]
  obtain ⟨pr1, hpr1, gpr1⟩ := hgeoL parent _ hg2parent
  obtain ⟨lr1, hlr1, glr1⟩ := hgeoL na _ hg2na
  unfold bisectRightPart at hrp
  obtain ⟨prec3, hprec3, hrp⟩ := obind_eq_some hrp
  obtain ⟨h7, hh7, hrp⟩ := obind_eq_some hrp
  obtain ⟨h8, hh8, hrp⟩ := obind_eq_some hrp
  obtain ⟨h9, hh9, hrp⟩ := obind_eq_some hrp
  obtain ⟨h10, hh10, hrp⟩ := obind_eq_some hrp
  injection Option.some.inj hrp with e1 e2
  subst e1
  subst e2
  have hgeoR : geoPres ((na + 1, (⟨none, none, visx1, prec.x1,
      sbLerp prec.w0 prec.w1 (visx1 - prec.x0) (prec.x1 - prec.x0), prec.w1, 0,
      prec.id⟩ : SpanRec)) :: h5x) h10 :=
    geoPres_trans (setNextAt_geo hh7)
      (geoPres_trans (setNextAt_geo hh8)
        (geoPres_trans (setHeightAt_geo hh9) (setHeightAt_geo hh10)))
  have hg6p : hGet ((na + 1, (⟨none, none, visx1, prec.x1,
      sbLerp prec.w0 prec.w1 (visx1 - prec.x0) (prec.x1 - prec.x0), prec.w1, 0,
      prec.id⟩ : SpanRec)) :: h5x) parent = some pr1 := by
    rw [hGet_cons, if_neg hpna1]
    exact hpr1
  have hg6na : hGet ((na + 1, (⟨none, none, visx1, prec.x1,
      sbLerp prec.w0 prec.w1 (visx1 - prec.x0) (prec.x1 - prec.x0), prec.w1, 0,
      prec.id⟩ : SpanRec)) :: h5x) na = some lr1 := by
    rw [hGet_cons, if_neg (by omega)]
    exact hlr1
  have hg6r : hGet ((na + 1, (⟨none, none, visx1, prec.x1,
      sbLerp prec.w0 prec.w1 (visx1 - prec.x0) (prec.x1 - prec.x0), prec.w1, 0,
      prec.id⟩ : SpanRec)) :: h5x) (na + 1) =
      some ⟨none, none, visx1, prec.x1,
        sbLerp prec.w0 prec.w1 (visx1 - prec.x0) (prec.x1 - prec.x0), prec.w1, 0,
        prec.id⟩ := by
    rw [hGet_cons, if_pos rfl]
  obtain ⟨pr, hprF, gprF⟩ := hgeoR parent _ hg6p
  obtain ⟨lr, hlrF, glrF⟩ := hgeoR na _ hg6na
  obtain ⟨rr, hrrF, grrF⟩ := hgeoR (na + 1) _ hg6r
  have gpr := sameGeo_trans gpr1 gprF
  have glr := sameGeo_trans glr1 glrF
  refine ⟨rfl, ⟨pr, hprF, gpr.1, gpr.2.1, gpr.2.2.1, gpr.2.2.2.1, gpr.2.2.2.2, ?_⟩,
    ⟨lr, hlrF, glr.1, glr.2.1, glr.2.2.1, glr.2.2.2.1, glr.2.2.2.2, ?_⟩,
    ⟨rr, hrrF, grrF.1, grrF.2.1, grrF.2.2.1, grrF.2.2.2.1, grrF.2.2.2.2, ?_⟩⟩
  · intro xx
    unfold spanWAt
    rw [gpr.1, gpr.2.1, gpr.2.2.1, gpr.2.2.2.1]
    exact sbLerp_restrict w0 w1 x0 x1 visx0 visx1 xx hxne hvne
  · intro xx
    unfold spanWAt
    rw [glr.1, glr.2.1, glr.2.2.1, glr.2.2.2.1]
    have hres := sbLerp_restrict prec.w0 prec.w1 prec.x0 prec.x1 prec.x0 visx0 xx
      hpne hlne
    rw [sub_self, sbLerp_zero] at hres
    exact hres
  · intro xx
    unfold spanWAt
    rw [grrF.1, grrF.2.1, grrF.2.2.1, grrF.2.2.2.1]
    have hres := sbLerp_restrict prec.w0 prec.w1 prec.x0 prec.x1 visx1 prec.x1 xx
      hpne hrne
    rw [sbLerp_full _ _ _ hpne] at hres
    exact hres

set_option maxRecDepth 60000 in
/-- C4 witness: bisecting the single parent span `[0, 10)` of constant depth
`1/4` (id 80) with the incoming span `[2, 8)` of constant depth 1 (id 66),
fresh addresses 1 and 2: the parent block of the conclusion at this input. -/
theorem C4_witness :
    ∃ pr, hGet [(2, (⟨none, none, 8, 10, 1/4, 1/4, 0, 80⟩ : SpanRec)),
        (1, ⟨none, none, 0, 2, 1/4, 1/4, 0, 80⟩),
        (0, ⟨some 1, some 2, 2, 8, 1, 1, 1, 66⟩)] 0 = some pr ∧
      pr.x0 = 2 ∧ pr.x1 = 8 ∧
      pr.w0 = sbLerp 1 1 ((2 : ℚ) - 2) (8 - 2) ∧
      pr.w1 = sbLerp 1 1 ((8 : ℚ) - 2) (8 - 2) ∧ pr.id = 66 ∧
      (∀ xx, spanWAt pr xx = sbLerp 1 1 (xx - 2) (8 - 2)) :=
  (C4_bisect_conservation
    [(0, ⟨none, none, 0, 10, 1/4, 1/4, 0, 80⟩)] 1 0 2 8 1 1 2 8 66
    ⟨none, none, 0, 10, 1/4, 1/4, 0, 80⟩
    [(2, ⟨none, none, 8, 10, 1/4, 1/4, 0, 80⟩),
      (1, ⟨none, none, 0, 2, 1/4, 1/4, 0, 80⟩),
      (0, ⟨some 1, some 2, 2, 8, 1, 1, 1, 66⟩)] 3
    (by decide) (by decide) (by decide) (by decide) (by decide) (by decide)
    (by decide) (by decide)).2.1

/- ------------------------------------------------------------------ -/
/- C5: key preservation (no allocation) on occluded pushes.            -/

/-- The addresses of the live spans, in heap order. -/
def heapKeys (h : Heap) : List Nat := h.map Prod.fst

/-- A store never adds or removes a span. -/
theorem hSet_keys {h h' : Heap} {a : Nat} {r : SpanRec}
    (hs : hSet h a r = some h') : heapKeys h' = heapKeys h := by
  unfold hSet at hs
  by_cases hp : (h.lookup a).isSome
  · rw [if_pos hp] at hs
    obtain rfl := Option.some.inj hs
    unfold heapKeys
    rw [List.map_map]
    apply List.map_congr_left
    intro p _
    by_cases hpa : p.1 = a
    · simp [Function.comp, hpa]
    · simp [Function.comp, hpa]
  · rw [if_neg hp] at hs
    exact absurd hs (by simp)

theorem setPrevAt_keys {h h' : Heap} {a : Nat} {p : Option Nat}
    (hs : setPrevAt h a p = some h') : heapKeys h' = heapKeys h := by
  unfold setPrevAt at hs
  obtain ⟨r, hr, hs⟩ := obind_eq_some hs
  exact hSet_keys hs

theorem setNextAt_keys {h h' : Heap} {a : Nat} {p : Option Nat}
    (hs : setNextAt h a p = some h') : heapKeys h' = heapKeys h := by
  unfold setNextAt at hs
  obtain ⟨r, hr, hs⟩ := obind_eq_some hs
  exact hSet_keys hs

theorem setHeightAt_keys {h h' : Heap} {a : Nat}
    (hs : setHeightAt h a = some h') : heapKeys h' = heapKeys h := by
  unfold setHeightAt at hs
  obtain ⟨r, hr, hs⟩ := obind_eq_some hs
  obtain ⟨v, hv, hs⟩ := obind_eq_some hs
  exact hSet_keys hs

theorem rotatePrevSide_keys {h : Heap} {oldP : Nat} {res : Nat × Option Nat × Heap}
    (hs : rotatePrevSide h oldP = some res) : heapKeys res.2.2 = heapKeys h := by
  unfold rotatePrevSide at hs
  obtain ⟨orec, ho, hs⟩ := obind_eq_some hs
  obtain ⟨npA0, hnp, hs⟩ := obind_eq_some hs
  obtain ⟨nrec0, hn0, hs⟩ := obind_eq_some hs
  obtain ⟨nbf, hbf, hs⟩ := obind_eq_some hs
  by_cases hb : nbf > 0
  · rw [if_pos hb] at hs
    obtain ⟨np2, hn2, hs⟩ := obind_eq_some hs
    obtain ⟨n2rec, hg2, hs⟩ := obind_eq_some hs
    obtain ⟨hx, hhx, hs⟩ := obind_eq_some hs
    obtain ⟨hy, hhy, hs⟩ := obind_eq_some hs
    obtain ⟨y, hyy, hs⟩ := obind_eq_some hs
    obtain rfl := Option.some.inj hyy
    obtain ⟨nrec1, hn1, hs⟩ := obind_eq_some hs
    obtain ⟨h2, hh2, hs⟩ := obind_eq_some hs
    obtain ⟨h3, hh3, hs⟩ := obind_eq_some hs
    obtain rfl := Option.some.inj hs
    exact (((setNextAt_keys hh3).trans (setPrevAt_keys hh2)).trans
      (setPrevAt_keys hhy)).trans (hSet_keys hhx)
  · rw [if_neg hb] at hs
    obtain ⟨y, hyy, hs⟩ := obind_eq_some hs
    obtain rfl := Option.some.inj hyy
    obtain ⟨nrec1, hn1, hs⟩ := obind_eq_some hs
    obtain ⟨h2, hh2, hs⟩ := obind_eq_some hs
    obtain ⟨h3, hh3, hs⟩ := obind_eq_some hs
    obtain rfl := Option.some.inj hs
    exact (setNextAt_keys hh3).trans (setPrevAt_keys hh2)

theorem rotateNextSide_keys {h : Heap} {oldP : Nat} {res : Nat × Option Nat × Heap}
    (hs : rotateNextSide h oldP = some res) : heapKeys res.2.2 = heapKeys h := by
  unfold rotateNextSide at hs
  obtain ⟨orec, ho, hs⟩ := obind_eq_some hs
  obtain ⟨npA0, hnp, hs⟩ := obind_eq_some hs
  obtain ⟨nrec0, hn0, hs⟩ := obind_eq_some hs
  obtain ⟨nbf, hbf, hs⟩ := obind_eq_some hs
  by_cases hb : nbf < 0
  · rw [if_pos hb] at hs
    obtain ⟨np2, hn2, hs⟩ := obind_eq_some hs
    obtain ⟨n2rec, hg2, hs⟩ := obind_eq_some hs
    obtain ⟨hx, hhx, hs⟩ := obind_eq_some hs
    obtain ⟨hy, hhy, hs⟩ := obind_eq_some hs
    obtain ⟨y, hyy, hs⟩ := obind_eq_some hs
    obtain rfl := Option.some.inj hyy
    obtain ⟨nrec1, hn1, hs⟩ := obind_eq_some hs
    obtain ⟨h2, hh2, hs⟩ := obind_eq_some hs
    obtain ⟨h3, hh3, hs⟩ := obind_eq_some hs
    obtain rfl := Option.some.inj hs
    exact (((setPrevAt_keys hh3).trans (setNextAt_keys hh2)).trans
      (setNextAt_keys hhy)).trans (hSet_keys hhx)
  · rw [if_neg hb] at hs
    obtain ⟨y, hyy, hs⟩ := obind_eq_some hs
    obtain rfl := Option.some.inj hyy
    obtain ⟨nrec1, hn1, hs⟩ := obind_eq_some hs
    obtain ⟨h2, hh2, hs⟩ := obind_eq_some hs
    obtain ⟨h3, hh3, hs⟩ := obind_eq_some hs
    obtain rfl := Option.some.inj hs
    exact (setPrevAt_keys hh3).trans (setNextAt_keys hh2)

theorem updateRotHeights_keys {h h' : Heap} {oldP : Nat} {childA : Option Nat}
    {npA : Nat} (hs : updateRotHeights h oldP childA npA = some h') :
    heapKeys h' = heapKeys h := by
  unfold updateRotHeights at hs
  obtain ⟨hh1, h1, hs⟩ := obind_eq_some hs
  obtain ⟨c, hc, hs⟩ := obind_eq_some hs
  obtain ⟨hh2, h2, hs⟩ := obind_eq_some hs
  exact ((setHeightAt_keys hs).trans (setHeightAt_keys h2)).trans
    (setHeightAt_keys h1)

theorem reparent_keys {h : Heap} {impa : Option Nat} {npA : Nat}
    {root : Option Nat} {h5 : Heap} {root1 : Option Nat}
    (hs : reparent h impa npA root = some (h5, root1)) :
    heapKeys h5 = heapKeys h := by
  unfold reparent at hs
  cases impa with
  | none =>
    injection Option.some.inj hs with e1 e2
    rw [← e1]
  | some ip =>
    obtain ⟨iprec, hip, hs⟩ := obind_eq_some hs
    obtain ⟨nrec, hnr, hs⟩ := obind_eq_some hs
    by_cases hc : nrec.x0 < iprec.x0
    · rw [if_pos hc] at hs
      obtain ⟨h', hset, hs⟩ := obind_eq_some hs
      injection Option.some.inj hs with e1 e2
      rw [← e1]
      exact hSet_keys hset
    · rw [if_neg hc] at hs
      obtain ⟨h', hset, hs⟩ := obind_eq_some hs
      injection Option.some.inj hs with e1 e2
      rw [← e1]
      exact hSet_keys hset

theorem backtrackGo_keys (stack : List PScope) (depth : Nat) (curr : Option Nat) :
    ∀ (n : Nat) (h : Heap) (ins imb sd : Int) (tmpx : ℚ) (h1 : Heap) (i m : Int),
      backtrackGo stack depth curr n h ins imb sd tmpx = some (h1, i, m) →
      heapKeys h1 = heapKeys h := by
  intro n
  induction n with
  | zero =>
    intro h ins imb sd tmpx h1 i m hs
    simp only [backtrackGo] at hs
    injection Option.some.inj hs with e1 e2
    rw [← e1]
  | succ n ih =>
    intro h ins imb sd tmpx h1 i m hs
    simp only [backtrackGo] at hs
    by_cases hc : ¬(ins < 0 ∨ imb < 0)
    · rw [if_pos hc] at hs
      injection Option.some.inj hs with e1 e2
      rw [← e1]
    · rw [if_neg hc] at hs
      obtain ⟨sc, hsc, hs⟩ := obind_eq_some hs
      obtain ⟨prec, hprec, hs⟩ := obind_eq_some hs
      by_cases hi : imb < 0
      · rw [if_pos hi] at hs
        obtain ⟨bf, hbf, hs⟩ := obind_eq_some hs
        by_cases hb2 : bf < -1 ∨ bf > 1
        · rw [if_pos hb2] at hs
          obtain ⟨y, hy, hs⟩ := obind_eq_some hs
          obtain rfl := Option.some.inj hy
          exact ih _ _ _ _ _ _ _ _ hs
        · rw [if_neg hb2] at hs
          by_cases hcur : curr.isSome
          · rw [if_pos hcur] at hs
            obtain ⟨h', hset, hs⟩ := obind_eq_some hs
            obtain ⟨y, hy, hs⟩ := obind_eq_some hs
            obtain rfl := Option.some.inj hy
            exact (ih _ _ _ _ _ _ _ _ hs).trans (hSet_keys hset)
          · rw [if_neg hcur] at hs
            obtain ⟨y, hy, hs⟩ := obind_eq_some hs
            obtain rfl := Option.some.inj hy
            exact ih _ _ _ _ _ _ _ _ hs
      · rw [if_neg hi] at hs
        obtain ⟨y, hy, hs⟩ := obind_eq_some hs
        obtain rfl := Option.some.inj hy
        exact ih _ _ _ _ _ _ _ _ hs

/-- Case family L never allocates unless it marks the span pushed. -/
theorem descendCaseL_frame {x0 x1 w0 w1 : ℚ} {id : Nat} {st : PState} {pa : Nat}
    {prec : SpanRec} {psize : ℚ} {si : SIRes} {st1 : PState}
    (hs : descendCaseL x0 x1 w0 w1 id st pa prec psize si = some st1)
    (hp : st1.pushed = false) :
    heapKeys st1.heap = heapKeys st.heap ∧ st1.nextAddr = st.nextAddr ∧
      st.pushed = false := by
  unfold descendCaseL at hs
  dsimp only at hs
  split_ifs at hs with h1 h2 h3 h4 h5 h6
  · obtain ⟨⟨h', na'⟩, hb, hs⟩ := obind_eq_some hs
    obtain rfl := Option.some.inj hs
    simp at hp
  · obtain ⟨h', hset, hs⟩ := obind_eq_some hs
    obtain rfl := Option.some.inj hs
    exact ⟨hSet_keys hset, rfl, hp⟩
  · obtain ⟨h', hset, hs⟩ := obind_eq_some hs
    obtain rfl := Option.some.inj hs
    exact ⟨hSet_keys hset, rfl, hp⟩
  · obtain ⟨h', hset, hs⟩ := obind_eq_some hs
    obtain rfl := Option.some.inj hs
    exact ⟨hSet_keys hset, rfl, hp⟩
  · obtain ⟨h', hset, hs⟩ := obind_eq_some hs
    obtain rfl := Option.some.inj hs
    simp at hp
  · obtain rfl := Option.some.inj hs
    exact ⟨rfl, rfl, hp⟩
  · obtain rfl := Option.some.inj hs
    exact ⟨rfl, rfl, hp⟩

/-- Case family R never allocates unless it marks the span pushed. -/
theorem descendCaseR_frame {x0 x1 w0 w1 : ℚ} {id : Nat} {st : PState} {pa : Nat}
    {prec : SpanRec} {psize w : ℚ} {si : SIRes} {st1 : PState} {gl : Bool}
    (hs : descendCaseR x0 x1 w0 w1 id st pa prec psize w si = some (st1, gl))
    (hp : st1.pushed = false) :
    heapKeys st1.heap = heapKeys st.heap ∧ st1.nextAddr = st.nextAddr ∧
      st.pushed = false := by
  unfold descendCaseR at hs
  dsimp only at hs
  split_ifs at hs with h1 h2 h3 h4 h5 h6 h7 h8 h9
  · obtain ⟨⟨h', na'⟩, hb, hs⟩ := obind_eq_some hs
    injection Option.some.inj hs with e1 e2
    rw [← e1] at hp
    simp at hp
  · obtain ⟨h', hset, hs⟩ := obind_eq_some hs
    injection Option.some.inj hs with e1 e2
    rw [← e1] at hp ⊢
    exact ⟨hSet_keys hset, rfl, hp⟩
  · obtain ⟨⟨h', na'⟩, hb, hs⟩ := obind_eq_some hs
    injection Option.some.inj hs with e1 e2
    rw [← e1] at hp
    simp at hp
  · obtain ⟨h', hset, hs⟩ := obind_eq_some hs
    injection Option.some.inj hs with e1 e2
    rw [← e1] at hp ⊢
    exact ⟨hSet_keys hset, rfl, hp⟩
  · obtain ⟨⟨h', na'⟩, hb, hs⟩ := obind_eq_some hs
    injection Option.some.inj hs with e1 e2
    rw [← e1] at hp
    simp at hp
  · obtain ⟨h', hset, hs⟩ := obind_eq_some hs
    injection Option.some.inj hs with e1 e2
    rw [← e1] at hp ⊢
    exact ⟨hSet_keys hset, rfl, hp⟩
  · obtain ⟨h', hset, hs⟩ := obind_eq_some hs
    injection Option.some.inj hs with e1 e2
    rw [← e1] at hp ⊢
    exact ⟨hSet_keys hset, rfl, hp⟩
  · obtain ⟨h', hset, hs⟩ := obind_eq_some hs
    injection Option.some.inj hs with e1 e2
    rw [← e1] at hp
    simp at hp
  · injection Option.some.inj hs with e1 e2
    rw [← e1] at hp ⊢
    exact ⟨rfl, rfl, hp⟩
  · injection Option.some.inj hs with e1 e2
    rw [← e1] at hp ⊢
    exact ⟨rfl, rfl, hp⟩

/-- One descent iteration never allocates unless it marks the span pushed. -/
theorem descendStep_frame {x0 x1 w0 w1 : ℚ} {id : Nat} {st : PState} {pa : Nat}
    {st1 : PState} {gl : Bool}
    (hs : descendStep x0 x1 w0 w1 id st pa = some (st1, gl))
    (hp : st1.pushed = false) :
    heapKeys st1.heap = heapKeys st.heap ∧ st1.nextAddr = st.nextAddr ∧
      st.pushed = false := by
  unfold descendStep at hs
  obtain ⟨prec, hprec, hs⟩ := obind_eq_some hs
  by_cases hx : st.x < prec.x0
  · rw [if_pos hx] at hs
    obtain ⟨st1', hcl, hs⟩ := obind_eq_some hs
    injection Option.some.inj hs with e1 e2
    subst e1
    exact descendCaseL_frame hcl hp
  · rw [if_neg hx] at hs
    exact descendCaseR_frame hs hp

/-- The inner search loop never allocates unless it marks the span pushed. -/
theorem descend_frame (x0 x1 w0 w1 : ℚ) (id : Nat) :
    ∀ (fuel : Nat) (st st' : PState),
      descend x0 x1 w0 w1 id fuel st = some (Sum.inl st') → st'.pushed = false →
      heapKeys st'.heap = heapKeys st.heap ∧ st'.nextAddr = st.nextAddr ∧
        st.pushed = false := by
  intro fuel
  induction fuel with
  | zero =>
    intro st st' hs hp
    simp only [descend] at hs
    cases hc : st.curr with
    | none =>
      rw [hc] at hs
      injection Option.some.inj hs with e
      subst e
      exact ⟨rfl, rfl, hp⟩
    | some pa =>
      rw [hc] at hs
      dsimp only at hs
      by_cases hd : st.depth = st.maxDepth
      · rw [if_pos hd] at hs
        exact Sum.noConfusion (Option.some.inj hs)
      · rw [if_neg hd] at hs
        exact Option.noConfusion hs
  | succ fuel ih =>
    intro st st' hs hp
    simp only [descend] at hs
    cases hc : st.curr with
    | none =>
      rw [hc] at hs
      injection Option.some.inj hs with e
      subst e
      exact ⟨rfl, rfl, hp⟩
    | some pa =>
      rw [hc] at hs
      dsimp only at hs
      by_cases hd : st.depth = st.maxDepth
      · rw [if_pos hd] at hs
        exact Sum.noConfusion (Option.some.inj hs)
      · rw [if_neg hd] at hs
        obtain ⟨⟨st1, gl⟩, hstep, hs⟩ := obind_eq_some hs
        obtain ⟨prec1, hprec1, hs⟩ := obind_eq_some hs
        cases gl with
        | true =>
          obtain ⟨k1, n1, p1⟩ := ih _ _ hs hp
          obtain ⟨k2, n2, p2⟩ := descendStep_frame hstep p1
          exact ⟨k1.trans k2, n1.trans n2, p2⟩
        | false =>
          obtain ⟨k1, n1, p1⟩ := ih _ _ hs hp
          obtain ⟨k2, n2, p2⟩ := descendStep_frame hstep p1
          exact ⟨k1.trans k2, n1.trans n2, p2⟩

/-- The leaf attach never allocates unless it marks the span pushed. -/
theorem attachPhase_frame {x0 x1 w0 w1 : ℚ} {id : Nat} {st st1 : PState}
    {clippedSize clipleft : ℚ}
    (hs : attachPhase x0 x1 w0 w1 id st clippedSize clipleft = some st1)
    (hp : st1.pushed = false) :
    heapKeys st1.heap = heapKeys st.heap ∧ st1.nextAddr = st.nextAddr ∧
      st.pushed = false := by
  unfold attachPhase at hs
  by_cases hc : clippedSize > 0
  · rw [if_pos hc] at hs
    obtain ⟨pa, hpa, hs⟩ := obind_eq_some hs
    obtain ⟨prec, hprec, hs⟩ := obind_eq_some hs
    dsimp only at hs
    by_cases hxa : st.x < prec.x0
    · rw [if_pos hxa] at hs
      obtain ⟨y, hset, hs⟩ := obind_eq_some hs
      obtain rfl := Option.some.inj hs
      simp at hp
    · rw [if_neg hxa] at hs
      obtain ⟨y, hset, hs⟩ := obind_eq_some hs
      obtain rfl := Option.some.inj hs
      simp at hp
  · rw [if_neg hc] at hs
    obtain rfl := Option.some.inj hs
    exact ⟨rfl, rfl, hp⟩

/-- The insertion bookmark block only repositions the cursor. -/
theorem insertionBlock_frame {st st3 : PState} {insBm : Int} {clipright : ℚ}
    (hs : insertionBlock st insBm clipright = some st3) :
    st3.heap = st.heap ∧ st3.nextAddr = st.nextAddr ∧ st3.pushed = st.pushed := by
  unfold insertionBlock at hs
  by_cases hc : insBm ≥ 0
  · rw [if_pos hc] at hs
    obtain ⟨sc, hsc, hs⟩ := obind_eq_some hs
    obtain ⟨crec, hcrec, hs⟩ := obind_eq_some hs
    obtain rfl := Option.some.inj hs
    exact ⟨rfl, rfl, rfl⟩
  · rw [if_neg hc] at hs
    obtain rfl := Option.some.inj hs
    exact ⟨rfl, rfl, rfl⟩

/-- The rebalancing block rotates and rewires but never allocates. -/
theorem rebalance_frame {st st4 : PState} {imbBm insBm : Int}
    (hs : rebalance st imbBm insBm = some st4) :
    heapKeys st4.heap = heapKeys st.heap ∧ st4.nextAddr = st.nextAddr ∧
      st4.pushed = st.pushed := by
  unfold rebalance at hs
  dsimp only at hs
  by_cases himb : imbBm ≠ 0
  · rw [if_pos himb] at hs
    obtain ⟨sc0, hsc0, hs⟩ := obind_eq_some hs
    obtain ⟨y0, hy0, hs⟩ := obind_eq_some hs
    obtain rfl := Option.some.inj hy0
    obtain ⟨scOld, hsc, hs⟩ := obind_eq_some hs
    obtain ⟨orec, horec, hs⟩ := obind_eq_some hs
    obtain ⟨bf, hbf, hs⟩ := obind_eq_some hs
    by_cases hb : bf < 0
    · rw [if_pos hb] at hs
      obtain ⟨y, hrot, hs⟩ := obind_eq_some hs
      obtain ⟨h4, hupd, hs⟩ := obind_eq_some hs
      obtain ⟨rp, hrep, hs⟩ := obind_eq_some hs
      have hk5 : heapKeys rp.1 = heapKeys st.heap :=
        ((reparent_keys hrep).trans (updateRotHeights_keys hupd)).trans
          (rotatePrevSide_keys hrot)
      by_cases hcmp : imbBm ≤ insBm
      · rw [if_pos hcmp] at hs
        obtain ⟨d1, hri, hs⟩ := obind_eq_some hs
        obtain ⟨cur, hcur, hs⟩ := obind_eq_some hs
        obtain ⟨d2, hrg, hs⟩ := obind_eq_some hs
        obtain rfl := Option.some.inj hs
        exact ⟨hk5, rfl, rfl⟩
      · rw [if_neg hcmp] at hs
        obtain rfl := Option.some.inj hs
        exact ⟨hk5, rfl, rfl⟩
    · rw [if_neg hb] at hs
      obtain ⟨y, hrot, hs⟩ := obind_eq_some hs
      obtain ⟨h4, hupd, hs⟩ := obind_eq_some hs
      obtain ⟨rp, hrep, hs⟩ := obind_eq_some hs
      have hk5 : heapKeys rp.1 = heapKeys st.heap :=
        ((reparent_keys hrep).trans (updateRotHeights_keys hupd)).trans
          (rotateNextSide_keys hrot)
      by_cases hcmp : imbBm ≤ insBm
      · rw [if_pos hcmp] at hs
        obtain ⟨d1, hri, hs⟩ := obind_eq_some hs
        obtain ⟨cur, hcur, hs⟩ := obind_eq_some hs
        obtain ⟨d2, hrg, hs⟩ := obind_eq_some hs
        obtain rfl := Option.some.inj hs
        exact ⟨hk5, rfl, rfl⟩
      · rw [if_neg hcmp] at hs
        obtain rfl := Option.some.inj hs
        exact ⟨hk5, rfl, rfl⟩
  · rw [if_neg himb] at hs
    obtain ⟨y0, hy0, hs⟩ := obind_eq_some hs
    obtain rfl := Option.some.inj hy0
    obtain ⟨scOld, hsc, hs⟩ := obind_eq_some hs
    obtain ⟨orec, horec, hs⟩ := obind_eq_some hs
    obtain ⟨bf, hbf, hs⟩ := obind_eq_some hs
    by_cases hb : bf < 0
    · rw [if_pos hb] at hs
      obtain ⟨y, hrot, hs⟩ := obind_eq_some hs
      obtain ⟨h4, hupd, hs⟩ := obind_eq_some hs
      obtain ⟨rp, hrep, hs⟩ := obind_eq_some hs
      have hk5 : heapKeys rp.1 = heapKeys st.heap :=
        ((reparent_keys hrep).trans (updateRotHeights_keys hupd)).trans
          (rotatePrevSide_keys hrot)
      by_cases hcmp : imbBm ≤ insBm
      · rw [if_pos hcmp] at hs
        obtain ⟨d1, hri, hs⟩ := obind_eq_some hs
        obtain ⟨cur, hcur, hs⟩ := obind_eq_some hs
        obtain ⟨d2, hrg, hs⟩ := obind_eq_some hs
        obtain rfl := Option.some.inj hs
        exact ⟨hk5, rfl, rfl⟩
      · rw [if_neg hcmp] at hs
        obtain rfl := Option.some.inj hs
        exact ⟨hk5, rfl, rfl⟩
    · rw [if_neg hb] at hs
      obtain ⟨y, hrot, hs⟩ := obind_eq_some hs
      obtain ⟨h4, hupd, hs⟩ := obind_eq_some hs
      obtain ⟨rp, hrep, hs⟩ := obind_eq_some hs
      have hk5 : heapKeys rp.1 = heapKeys st.heap :=
        ((reparent_keys hrep).trans (updateRotHeights_keys hupd)).trans
          (rotateNextSide_keys hrot)
      by_cases hcmp : imbBm ≤ insBm
      · rw [if_pos hcmp] at hs
        obtain ⟨d1, hri, hs⟩ := obind_eq_some hs
        obtain ⟨cur, hcur, hs⟩ := obind_eq_some hs
        obtain ⟨d2, hrg, hs⟩ := obind_eq_some hs
        obtain rfl := Option.some.inj hs
        exact ⟨hk5, rfl, rfl⟩
      · rw [if_neg hcmp] at hs
        obtain rfl := Option.some.inj hs
        exact ⟨hk5, rfl, rfl⟩

/-- One outer iteration never allocates unless it marks the span pushed. -/
theorem outerStep_frame {x0 x1 w0 w1 : ℚ} {id : Nat} {st st4 : PState}
    (hs : outerStep x0 x1 w0 w1 id st = some (Sum.inl st4))
    (hp : st4.pushed = false) :
    heapKeys st4.heap = heapKeys st.heap ∧ st4.nextAddr = st.nextAddr ∧
      st.pushed = false := by
  unfold outerStep at hs
  obtain ⟨r, hr, hs⟩ := obind_eq_some hs
  cases r with
  | inr stM => exact Sum.noConfusion (Option.some.inj hs)
  | inl st0 =>
    obtain ⟨st1, hat, hs⟩ := obind_eq_some hs
    obtain ⟨⟨hh1, insBm, imbBm⟩, hbt, hs⟩ := obind_eq_some hs
    obtain ⟨st3, hins, hs⟩ := obind_eq_some hs
    dsimp only at hs
    have hreb' : heapKeys st4.heap = heapKeys st3.heap ∧
        st4.nextAddr = st3.nextAddr ∧ st4.pushed = st3.pushed := by
      by_cases hib : imbBm ≥ 0
      · rw [if_pos hib] at hs
        obtain ⟨st4x, hreb, hs⟩ := obind_eq_some hs
        injection Option.some.inj hs with e
        subst e
        exact rebalance_frame hreb
      · rw [if_neg hib] at hs
        obtain ⟨st4x, hreb, hs⟩ := obind_eq_some hs
        obtain rfl := Option.some.inj hreb
        injection Option.some.inj hs with e
        subst e
        exact ⟨rfl, rfl, rfl⟩
    obtain ⟨hins1, hins2, hins3⟩ := insertionBlock_frame hins
    have hp1 : st1.pushed = false := by
      rw [hreb'.2.2, hins3] at hp
      exact hp
    obtain ⟨ka, na, pa⟩ := attachPhase_frame hat hp1
    obtain ⟨kd, nd, pd⟩ := descend_frame x0 x1 w0 w1 id _ _ _ hr pa
    refine ⟨?_, ?_, pd⟩
    · exact (hreb'.1.trans (congrArg heapKeys hins1)).trans
        ((backtrackGo_keys _ _ _ _ _ _ _ _ _ _ _ _ hbt).trans (ka.trans kd))
    · exact (hreb'.2.1.trans hins2).trans (na.trans nd)

/-- The outer insertion loop never allocates unless it marks the span
pushed. -/
theorem pushLoop_frame (x0 x1 w0 w1 : ℚ) (id : Nat) :
    ∀ (fuel : Nat) (st st' : PState),
      pushLoop x0 x1 w0 w1 id fuel st = some (Sum.inl st') → st'.pushed = false →
      heapKeys st'.heap = heapKeys st.heap ∧ st'.nextAddr = st.nextAddr ∧
        st.pushed = false := by
  intro fuel
  induction fuel with
  | zero =>
    intro st st' hs hp
    simp only [pushLoop] at hs
    by_cases hr : st.remaining > 0
    · rw [if_pos hr] at hs
      exact Option.noConfusion hs
    · rw [if_neg hr] at hs
      injection Option.some.inj hs with e
      subst e
      exact ⟨rfl, rfl, hp⟩
  | succ fuel ih =>
    intro st st' hs hp
    simp only [pushLoop] at hs
    by_cases hr : st.remaining > 0
    · rw [if_pos hr] at hs
      obtain ⟨r, hstep, hs⟩ := obind_eq_some hs
      cases r with
      | inr stM => exact Sum.noConfusion (Option.some.inj hs)
      | inl st1 =>
        obtain ⟨k1, n1, p1⟩ := ih st1 st' hs hp
        obtain ⟨k2, n2, p2⟩ := outerStep_frame hstep p1
        exact ⟨k1.trans k2, n1.trans n2, p2⟩
    · rw [if_neg hr] at hs
      injection Option.some.inj hs with e
      subst e
      exact ⟨rfl, rfl, hp⟩

set_option maxRecDepth 60000 in
/-- C5 (amended): whenever `SB_Push` returns 1 through the occluded /
nothing-to-insert path (`notPushed`, as opposed to the max-depth path), no
span is added to or removed from the buffer: the list of span addresses and
the allocation counter are exactly as before the call.  In the claim's
concrete scenario — pushing `(0, 6, 2, 2, id 65)` and then `(1, 4, 1, 1,
id 66)` on a fresh width-16 buffer — the second push returns 1 and the
buffer is exactly unchanged, the single span `[0, 6)` with id 65.  (Exact
unchangedness for every buffer is refuted by the counterexample: on a
crafted buffer violating the order invariant an occluded push can clip a
span before discovering the occlusion.) -/
theorem C5_occluded_amended :
    (∀ (sb sb' : SBuffer) (x0 x1 w0 w1 : ℚ) (id : Nat),
      SB_Push sb x0 x1 w0 w1 id = some (sb', PushRet.notPushed) →
      heapKeys sb'.heap = heapKeys sb.heap ∧ sb'.nextAddr = sb.nextAddr) ∧
    SB_Push (SB_Init 16 1 16) 0 6 2 2 65 =
      some (⟨[(0, ⟨none, none, 0, 6, 2, 2, 0, 65⟩)], 1, some 0, 16, 1, 16⟩,
        PushRet.ok) ∧
    SB_Push (⟨[(0, ⟨none, none, 0, 6, 2, 2, 0, 65⟩)], 1, some 0, 16, 1, 16⟩ :
        SBuffer) 1 4 1 1 66 =
      some (⟨[(0, ⟨none, none, 0, 6, 2, 2, 0, 65⟩)], 1, some 0, 16, 1, 16⟩,
        PushRet.notPushed) := by
  refine ⟨?_, by decide, by decide⟩
  intro sb sb' x0 x1 w0 w1 id hpush
  unfold SB_Push at hpush
  cases hroot : sb.root with
  | none =>
    rw [hroot] at hpush
    have e := Option.some.inj hpush
    unfold pushEmptyRoot at e
    dsimp only at e
    split_ifs at e with hc
    · injection e with e1 e2
      exact PushRet.noConfusion e2
    · injection e with e1 e2
      rw [← e1]
      exact ⟨rfl, rfl⟩
  | some rootA =>
    rw [hroot] at hpush
    dsimp only at hpush
    cases hloop : pushLoop x0 x1 w0 w1 id pushFuel ⟨sb.heap, sb.nextAddr,
        some rootA, sb.size, sb.zNear, sb.maxDepth, 0, (sb.size : ℚ), x0, x1 - x0,
        false, [], 0, some rootA, none⟩ with
    | none =>
      rw [hloop] at hpush
      exact Option.noConfusion hpush
    | some r =>
      rw [hloop] at hpush
      cases r with
      | inr stM =>
        injection Option.some.inj hpush with e1 e2
        exact PushRet.noConfusion e2
      | inl stF =>
        dsimp only at hpush
        by_cases hpF : stF.pushed
        · rw [if_pos hpF] at hpush
          injection Option.some.inj hpush with e1 e2
          exact PushRet.noConfusion e2
        · rw [if_neg hpF] at hpush
          injection Option.some.inj hpush with e1 e2
          have hF : stF.pushed = false := by
            revert hpF
            cases stF.pushed <;> simp
          obtain ⟨hk, hn, -⟩ := pushLoop_frame x0 x1 w0 w1 id pushFuel _ _ hloop hF
          rw [← e1]
          exact ⟨hk, hn⟩

end SB
